import Mathlib

/-!
# Orbit animation loop of `frontend/script.js`

A shallow embedding of `initOrbitSimulation`: the asteroid initialisation loop,
`updateAsteroid`, `checkCollision`, the control callbacks and `animate`.

JavaScript numbers are modelled as elements of a linearly ordered field `F`
(`ℚ` for evaluation, `ℝ` for the statements about `Math.sqrt`, `Math.cos` and
`Math.sin`).  The `Math` object is a record of functions passed to the code that
uses it.  The initialisation loop takes the rounding `rd` that every arithmetic
result and decimal literal undergoes; `roundDouble` is the rounding of IEEE 754
binary64, to nearest with ties to even.  The per-frame functions and the
callbacks compute in the field itself.  Drawing calls write to the canvas only
and leave every asteroid field untouched; they are not part of the model.
-/

namespace AstroG

/-- The members of the JavaScript `Math` object that the simulation uses,
other than `Math.random`, which is a stream of draws. -/
structure JSMath (F : Type) where
  sqrt : F → F
  cos : F → F
  sin : F → F
  PI : F

/-- The record `M` is the real-number `Math` library. -/
def IsRealMath (M : JSMath ℝ) : Prop :=
  M.sqrt = Real.sqrt ∧ M.cos = Real.cos ∧ M.sin = Real.sin ∧ M.PI = Real.pi

/-- The functions `sqrt`, `cos` and `sin` of the record `M` are the real ones. -/
def IsRealTrig (M : JSMath ℝ) : Prop :=
  M.sqrt = Real.sqrt ∧ M.cos = Real.cos ∧ M.sin = Real.sin

/-- The values of the string field `state` that the code assigns. -/
inductive HazardState where
  | normal
  | near
  | hit
  deriving DecidableEq

/-- An element `{ x, y }` of a trail. -/
structure Point (F : Type) where
  x : F
  y : F

/-- The object pushed onto `asteroids` (script.js lines 83-92). -/
structure Asteroid (F : Type) where
  a : F
  b : F
  angle : F
  size : F
  trail : List (Point F)
  x : F
  y : F
  r : F
  vx : F
  vy : F
  state : HazardState
  speedMultiplier : F

section Constants

variable {F : Type} [LinearOrderedField F]

/-- `const GRAVITY_SCALE = 0.15`. -/
def GRAVITY_SCALE : F := 15 / 100

/-- `const DANGER_RADIUS = 100`. -/
def DANGER_RADIUS : F := 100

/-- `const MAX_TRAIL_LENGTH = 20`. -/
def MAX_TRAIL_LENGTH : Nat := 20

/-- `EARTH.radius`, from `const EARTH = { radius: 15, ... }`. -/
def EARTH_radius : F := 15

/-- `const COUNT = 35`. -/
def COUNT : Nat := 35

/-- The Number `Math.PI`, the double nearest to pi:
`884279719003555 * 2^(-48) = 3.141592653589793115997963...`. -/
def Math_PI : F := 884279719003555 / 281474976710656

end Constants

section Doubles

variable {F : Type} [LinearOrderedField F] [FloorRing F]

/-- Rounding to the nearest integer, ties to the even one. -/
def roundHalfEven (q : F) : ℤ :=
  if q - (⌊q⌋ : F) < 1 / 2 then ⌊q⌋
  else if 1 / 2 < q - (⌊q⌋ : F) then ⌊q⌋ + 1
  else if ⌊q⌋ % 2 = 0 then ⌊q⌋ else ⌊q⌋ + 1

/-- The exponent `e` of the binade `[2^e, 2^(e+1))` that holds `|x|`, not below
the least normal exponent `-1022`. -/
def binade (x : F) : ℤ := max (Int.log 2 |x|) (-1022)

/-- The IEEE 754 binary64 value nearest to `x`, ties to even: `x` is rounded to
a multiple of `2^(e-52)`, `e` the exponent of its binade.  Overflow to
`Infinity` (from `2^1024` on) is not represented; no value of the initialisation
loop exceeds `350`. -/
def roundDouble (x : F) : F :=
  (roundHalfEven (x / 2 ^ (binade x - 52)) : F) * 2 ^ (binade x - 52)

end Doubles

section Code

variable {F : Type} [LinearOrderedField F]

/-- One pass of the initialisation loop body (lines 71-93) for index `i`.
`rnd k` is the value of the `k`-th call of `Math.random()`; the body makes four
calls, in the order `a`, `b`, `angle`, `size`.  `rd` rounds the result of each
arithmetic operation and each decimal literal (`0.8`, `0.2`, `0.6`, `0.4`) to a
Number; the literals `60`, `40`, `150`, `200` and `2` are Numbers as written. -/
def mkAsteroid (rd : F → F) (M : JSMath F) (rnd : Nat → F) (i : Nat) : Asteroid F :=
  let a : F :=
    if i < 5 then rd (60 + rd (rnd (4 * i) * 40))
    else rd (150 + rd (rnd (4 * i) * 200))
  let b : F :=
    if i < 5 then rd (a * rd (rd (8 / 10) + rd (rnd (4 * i + 1) * rd (2 / 10))))
    else rd (a * rd (rd (6 / 10) + rd (rnd (4 * i + 1) * rd (4 / 10))))
  { a := a
    b := b
    angle := rd (rd (rnd (4 * i + 2) * M.PI) * 2)
    size := rd (2 + rd (rnd (4 * i + 3) * 2))
    trail := []
    x := 0
    y := 0
    r := 0
    vx := 0
    vy := 0
    state := HazardState.normal
    speedMultiplier := 1 }

/-- The array `asteroids` after the initialisation loop. -/
def initAsteroids (rd : F → F) (M : JSMath F) (rnd : Nat → F) : List (Asteroid F) :=
  (List.range COUNT).map (mkAsteroid rd M rnd)

/-- The trail logic of `updateAsteroid` (lines 120-128): `push`, then `shift`
when the length exceeds `MAX_TRAIL_LENGTH`; a fresh empty array when trails are
off. -/
def updateTrail (showTrails : Bool) (trail : List (Point F)) (x y : F) : List (Point F) :=
  if showTrails then
    let pushed := trail ++ [{ x := x, y := y }]
    if pushed.length > MAX_TRAIL_LENGTH then pushed.tail else pushed
  else
    []

/-- The function `updateAsteroid(a, cx, cy)` (lines 96-129); `showTrails` is
the closure variable it reads. -/
def updateAsteroid (M : JSMath F) (showTrails : Bool) (a : Asteroid F) (cx cy : F) :
    Asteroid F :=
  let x := cx + a.a * M.cos a.angle
  let y := cy + a.b * M.sin a.angle
  let dx := x - cx
  let dy := y - cy
  let r := M.sqrt (dx * dx + dy * dy)
  let speed := (GRAVITY_SCALE / M.sqrt r) * a.speedMultiplier
  { a with
    vx := -M.sin a.angle * speed * a.a
    vy := M.cos a.angle * speed * a.b
    angle := a.angle + speed
    x := x
    y := y
    r := r
    trail := updateTrail showTrails a.trail x y }

/-- The function `checkCollision(a)` (lines 131-140). -/
def checkCollision (a : Asteroid F) : Asteroid F :=
  let a1 := { a with state := HazardState.normal }
  if a1.r < DANGER_RADIUS then
    let a2 := { a1 with state := HazardState.near }
    if a2.r ≤ EARTH_radius + a2.size + 5 then
      { a2 with state := HazardState.hit }
    else a2
  else a1

/-- The closure variables that `animate` reads: the three control variables and
the canvas size set by `resize`. -/
structure Controls (F : Type) where
  showTrails : Bool
  isPaused : Bool
  speedMultiplier : F
  width : F
  height : F

/-- The values of the control variables at line 211-213. -/
def initControls (width height : F) : Controls F :=
  { showTrails := true, isPaused := false, speedMultiplier := 1,
    width := width, height := height }

/-- The callback `trailBtn.onclick`. -/
def trailToggle (c : Controls F) : Controls F :=
  { c with showTrails := !c.showTrails }

/-- The callback `playPauseBtn.onclick`. -/
def playPause (c : Controls F) : Controls F :=
  { c with isPaused := !c.isPaused }

/-- The callback `speedSlider.oninput`; `value` is the number that
`speedSlider.value` converts to. -/
def speedInput (c : Controls F) (value : F) : Controls F :=
  { c with speedMultiplier := value / 40 }

/-- The body of the `asteroids.forEach` callback in `animate` (lines 257-266),
without the drawing call. -/
def animateOne (M : JSMath F) (c : Controls F) (cx cy : F) (a : Asteroid F) : Asteroid F :=
  let a1 := { a with speedMultiplier := c.speedMultiplier }
  checkCollision (updateAsteroid M c.showTrails a1 cx cy)

/-- The counter `activeHazards` at the end of the `forEach` of `animate`. -/
def activeHazards (as : List (Asteroid F)) : Nat :=
  as.countP (fun a => decide (a.state ≠ HazardState.normal))

/-- One call of `animate` (lines 241-276) on the array `asteroids`: the array
after the call. -/
def animate (M : JSMath F) (c : Controls F) (as : List (Asteroid F)) : List (Asteroid F) :=
  if c.isPaused then as
  else
    let cx := c.width / 2
    let cy := c.height / 2
    as.map (animateOne M c cx cy)

/-- The text written to the elements `trackedCount` and `hazardousCount` by a
call of `animate`, when the call reaches line 272; `none` for a paused call. -/
def animateStats (M : JSMath F) (c : Controls F) (as : List (Asteroid F)) :
    Option (Nat × Nat) :=
  if c.isPaused then none
  else
    let as1 := animate M c as
    some (as1.length, activeHazards as1)

/-- The array `asteroids` after a sequence of calls of `animate`, the `k`-th
call reading the closure variables `cs[k]`. -/
def runFrames (M : JSMath F) (cs : List (Controls F)) (as : List (Asteroid F)) :
    List (Asteroid F) :=
  cs.foldl (fun acc c => animate M c acc) as

/-- The hazard classification in the words of the specification: `near` if
`r < 100`, escalated to `hit` if `r <= earthRadius + size + 5`, otherwise
`normal`. -/
def hazardOf (r size : F) : HazardState :=
  if r < 100 then
    if r ≤ 15 + size + 5 then HazardState.hit else HazardState.near
  else HazardState.normal

/-- The ranges that the initialisation loop gives the constant fields `a`, `b`
and `size` of the asteroid at index `i`, for draws of `Math.random()` in
`[0, 1)`. -/
def InitShape (i : Nat) (a : Asteroid F) : Prop :=
  (i < 5 → (60 ≤ a.a ∧ a.a ≤ 100) ∧ (48 ≤ a.b ∧ a.b ≤ a.a)) ∧
  (5 ≤ i → (150 ≤ a.a ∧ a.a ≤ 350) ∧ (90 ≤ a.b ∧ a.b ≤ a.a)) ∧
  (2 ≤ a.size ∧ a.size ≤ 4)

/-- The array holds `COUNT` asteroids, the one at index `i` has the constant
fields that initialisation gives index `i`, and none is in the state `hit`. -/
def ShapeInv (as : List (Asteroid F)) : Prop :=
  as.length = COUNT ∧
  ∀ (i : Nat) (a : Asteroid F), as[i]? = some a → InitShape i a ∧ a.state ≠ HazardState.hit

/-- The asteroid at index `i` has the constant fields that initialisation gives
index `i`, and its stored distance and state are as an update leaves them:
`r >= 47`, `r > EARTH.radius + size + 5`, the state is not `hit`, it is `near`
exactly when `r < DANGER_RADIUS`, and for `i < 5` the distance is at most
`101`. -/
def OrbitSafe (i : Nat) (a : Asteroid F) : Prop :=
  InitShape i a ∧
  47 ≤ a.r ∧
  EARTH_radius + a.size + 5 < a.r ∧
  a.state ≠ HazardState.hit ∧
  (a.state = HazardState.near ↔ a.r < DANGER_RADIUS) ∧
  (i < 5 → a.r ≤ 101)

/-- Draws of `Math.random()` that reach the upper ends of the ranges of `a` and
`b` and fall below the exact lower ends of `b`: asteroid `0` draws `1 - 2^(-52)`
twice, asteroid `1` draws `1/2 + 3 * 2^(-51)` and `0`, asteroid `5` draws
`1 - 2^(-53)` twice, asteroid `6` draws `2^(-49)` and `0`; every other draw is
`0`. -/
def boundaryDraws (k : Nat) : F :=
  if k = 0 ∨ k = 1 then 1 - 1 / 2 ^ 52
  else if k = 4 then 1 / 2 + 3 / 2 ^ 51
  else if k = 20 ∨ k = 21 then 1 - 1 / 2 ^ 53
  else if k = 24 then 1 / 2 ^ 49
  else 0

/-- Draws of `Math.random()` whose first value is `1 - 2^(-52)`, the others
`0`. -/
def upperDraw (k : Nat) : F :=
  if k = 0 then 1 - 1 / 2 ^ 52 else 0

/-- An asteroid object with the given `r`, `size` and trail, used as a concrete
input. -/
def sampleAsteroid (r size : F) (trail : List (Point F)) : Asteroid F :=
  { a := 70, b := 60, angle := 0, size := size, trail := trail, x := 0, y := 0, r := r,
    vx := 0, vy := 0, state := HazardState.normal, speedMultiplier := 1 }

/-- Closure variables with the given controls on an `800 x 600` canvas, used as
a concrete input. -/
def sampleControls (showTrails isPaused : Bool) (speedMultiplier : F) : Controls F :=
  { showTrails := showTrails, isPaused := isPaused, speedMultiplier := speedMultiplier,
    width := 800, height := 600 }

end Code

section Powers

variable {F : Type} [LinearOrderedField F]

theorem two_zpow_pos (k : ℤ) : (0 : F) < 2 ^ k := zpow_pos (by norm_num) k

theorem two_zpow_le {j k : ℤ} (h : j ≤ k) : (2 : F) ^ j ≤ 2 ^ k :=
  zpow_le_zpow_right₀ (by norm_num) h

theorem two_zpow_split (e : ℤ) : (2 : F) ^ (e + 1) = 2 ^ 53 * 2 ^ (e - 52) := by
  have h : e + 1 = 53 + (e - 52) := by ring
  rw [h, zpow_add₀ (by norm_num : (2 : F) ≠ 0)]
  norm_num

theorem two_zpow_split0 (e : ℤ) : (2 : F) ^ e = 2 ^ 52 * 2 ^ (e - 52) := by
  have h : e = 52 + (e - 52) := by ring
  nth_rewrite 1 [h]
  rw [zpow_add₀ (by norm_num : (2 : F) ≠ 0)]
  norm_num

end Powers

section Rounding

variable {F : Type} [LinearOrderedField F] [FloorRing F]

theorem roundHalfEven_intCast (n : ℤ) : roundHalfEven (n : F) = n := by
  simp [roundHalfEven]

theorem roundHalfEven_of_abs_lt (q : F) (n : ℤ) (h : |q - n| < 1 / 2) :
    roundHalfEven q = n := by
  rw [abs_lt] at h
  obtain ⟨h1, h2⟩ := h
  unfold roundHalfEven
  by_cases hq : (n : F) ≤ q
  · have hf : ⌊q⌋ = n := by
      rw [Int.floor_eq_iff]
      constructor
      · exact hq
      · linarith
    rw [hf, if_pos h2]
  · have hf : ⌊q⌋ = n - 1 := by
      rw [Int.floor_eq_iff]
      push_cast
      constructor
      · linarith
      · push_neg at hq
        linarith
    rw [hf]
    push_cast
    rw [if_neg (by linarith), if_pos (by linarith)]
    ring

theorem roundHalfEven_tie_up (q : F) (n : ℤ) (hn : n % 2 = 0) (h : q = n - 1 / 2) :
    roundHalfEven q = n := by
  have hf : ⌊q⌋ = n - 1 := by
    rw [Int.floor_eq_iff]
    push_cast
    constructor <;> linarith
  unfold roundHalfEven
  rw [hf]
  push_cast
  rw [if_neg (by linarith), if_neg (by linarith), if_neg (by omega)]
  ring

theorem roundHalfEven_mono {p q : F} (h : p ≤ q) : roundHalfEven p ≤ roundHalfEven q := by
  have hfl : ⌊p⌋ ≤ ⌊q⌋ := Int.floor_mono h
  have hp1 := Int.floor_le p
  have hp2 := Int.lt_floor_add_one p
  have hq1 := Int.floor_le q
  have hq2 := Int.lt_floor_add_one q
  rcases hfl.lt_or_eq with hlt | heq
  · have h1 : roundHalfEven p ≤ ⌊p⌋ + 1 := by
      unfold roundHalfEven
      split_ifs <;> omega
    have h2 : ⌊q⌋ ≤ roundHalfEven q := by
      unfold roundHalfEven
      split_ifs <;> omega
    omega
  · unfold roundHalfEven
    rw [← heq]
    split_ifs <;> first | omega | (exfalso; linarith)

theorem binade_ge (x : F) : -1022 ≤ binade x := le_max_right _ _

theorem lt_two_zpow_binade (x : F) : |x| < 2 ^ (binade x + 1) := by
  have h1 := Int.lt_zpow_succ_log_self (by norm_num : 1 < 2) |x|
  have h2 : Int.log 2 |x| + 1 ≤ binade x + 1 := by
    have := le_max_left (Int.log 2 |x|) (-1022)
    unfold binade
    omega
  have h3 := two_zpow_le (F := F) h2
  simp only [Nat.cast_ofNat] at h1
  exact lt_of_lt_of_le h1 h3

theorem two_zpow_binade_le (x : F) (hx : x ≠ 0) (h : -1022 < binade x) :
    2 ^ binade x ≤ |x| := by
  have hlog : binade x = Int.log 2 |x| := by
    unfold binade at h ⊢
    rcases le_total (Int.log 2 |x|) (-1022) with h1 | h1
    · rw [max_eq_right h1] at h
      omega
    · exact max_eq_left h1
  have := Int.zpow_log_le_self (R := F) (by norm_num : 1 < 2) (abs_pos.mpr hx)
  simp only [Nat.cast_ofNat] at this
  rw [hlog]
  exact this

theorem binade_eq_of_mem (x : F) (e : ℤ) (he : -1022 ≤ e) (h1 : 2 ^ e ≤ |x|)
    (h2 : |x| < 2 ^ (e + 1)) : binade x = e := by
  have hpos : 0 < |x| := lt_of_lt_of_le (two_zpow_pos e) h1
  have hlog : Int.log 2 |x| = e := by
    apply le_antisymm
    · have := (Int.lt_zpow_iff_log_lt (by norm_num : 1 < 2) hpos (x := e + 1)).mp
        (by simpa using h2)
      omega
    · exact (Int.zpow_le_iff_le_log (by norm_num : 1 < 2) hpos).mp (by simpa using h1)
  unfold binade
  rw [hlog]
  exact max_eq_left he

theorem roundDouble_eq (x : F) (e n : ℤ) (he : -1022 ≤ e) (h1 : 2 ^ e ≤ |x|)
    (h2 : |x| < 2 ^ (e + 1)) (hn : roundHalfEven (x / 2 ^ (e - 52)) = n) :
    roundDouble x = n * 2 ^ (e - 52) := by
  unfold roundDouble
  rw [binade_eq_of_mem x e he h1 h2, hn]

theorem roundDouble_zero : roundDouble (0 : F) = 0 := by
  unfold roundDouble
  rw [zero_div]
  have : roundHalfEven (0 : F) = 0 := by
    have := roundHalfEven_intCast (F := F) 0
    simpa using this
  rw [this]
  simp

theorem roundDouble_nonneg {x : F} (hx : 0 ≤ x) : 0 ≤ roundDouble x := by
  unfold roundDouble
  apply mul_nonneg _ (two_zpow_pos _).le
  have h0 : roundHalfEven (0 : F) = 0 := by
    have := roundHalfEven_intCast (F := F) 0
    simpa using this
  have : (0 : ℤ) ≤ roundHalfEven (x / 2 ^ (binade x - 52)) := by
    rw [← h0]
    exact roundHalfEven_mono (div_nonneg hx (two_zpow_pos _).le)
  exact_mod_cast this

theorem roundHalfEven_two_pow (k : ℕ) : roundHalfEven ((2 : F) ^ k) = 2 ^ k := by
  have := roundHalfEven_intCast (F := F) (2 ^ k)
  simpa using this

theorem roundDouble_le_two_zpow {x : F} (hx : 0 ≤ x) :
    roundDouble x ≤ 2 ^ (binade x + 1) := by
  have h1 := lt_two_zpow_binade x
  rw [abs_of_nonneg hx, two_zpow_split] at h1
  have hs := two_zpow_pos (F := F) (binade x - 52)
  have h2 : x / 2 ^ (binade x - 52) ≤ 2 ^ 53 := by
    rw [div_le_iff₀ hs]
    exact h1.le
  have h3 := roundHalfEven_mono h2
  rw [roundHalfEven_two_pow] at h3
  have h4 : (roundHalfEven (x / 2 ^ (binade x - 52)) : F) ≤ 2 ^ 53 := by exact_mod_cast h3
  rw [two_zpow_split]
  unfold roundDouble
  exact mul_le_mul_of_nonneg_right h4 hs.le

theorem two_zpow_le_roundDouble {x : F} (hx : 0 < x) (h : -1022 < binade x) :
    2 ^ binade x ≤ roundDouble x := by
  have h1 := two_zpow_binade_le x hx.ne' h
  rw [abs_of_pos hx, two_zpow_split0] at h1
  have hs := two_zpow_pos (F := F) (binade x - 52)
  have h2 : (2 : F) ^ 52 ≤ x / 2 ^ (binade x - 52) := by
    rw [le_div_iff₀ hs]
    exact h1
  have h3 := roundHalfEven_mono h2
  rw [roundHalfEven_two_pow] at h3
  have h4 : (2 : F) ^ 52 ≤ (roundHalfEven (x / 2 ^ (binade x - 52)) : F) := by
    exact_mod_cast h3
  rw [two_zpow_split0]
  unfold roundDouble
  exact mul_le_mul_of_nonneg_right h4 hs.le

theorem binade_mono {x y : F} (hx : 0 < x) (h : x ≤ y) : binade x ≤ binade y := by
  unfold binade
  apply max_le_max _ le_rfl
  apply Int.log_mono_right (abs_pos.mpr hx.ne')
  rw [abs_of_pos hx, abs_of_pos (lt_of_lt_of_le hx h)]
  exact h

/-- Rounding to a double is monotone on the non-negative numbers. -/
theorem roundDouble_mono {x y : F} (hx : 0 ≤ x) (h : x ≤ y) :
    roundDouble x ≤ roundDouble y := by
  rcases hx.eq_or_lt with h0 | hpos
  · rw [← h0, roundDouble_zero]
    exact roundDouble_nonneg (hx.trans h)
  · have hy : 0 < y := lt_of_lt_of_le hpos h
    rcases (binade_mono hpos h).eq_or_lt with he | he
    · unfold roundDouble
      rw [← he]
      have hs := two_zpow_pos (F := F) (binade x - 52)
      have h1 : x / 2 ^ (binade x - 52) ≤ y / 2 ^ (binade x - 52) :=
        div_le_div_of_nonneg_right h hs.le
      have h2 := roundHalfEven_mono h1
      have h3 : (roundHalfEven (x / 2 ^ (binade x - 52)) : F) ≤
          (roundHalfEven (y / 2 ^ (binade x - 52)) : F) := by exact_mod_cast h2
      exact mul_le_mul_of_nonneg_right h3 hs.le
    · have h1 := roundDouble_le_two_zpow hx
      have h2 : (2 : F) ^ (binade x + 1) ≤ 2 ^ binade y := two_zpow_le (by omega)
      have h3 := two_zpow_le_roundDouble hy (by have := binade_ge x; omega)
      exact h1.trans (h2.trans h3)

/-- Every integer multiple `m * 2^k` with `|m| < 2^53` and `k >= -1074` is a
double: rounding leaves it unchanged. -/
theorem roundDouble_fix (m k : ℤ) (hm : |m| < 2 ^ 53) (hk : -1074 ≤ k) :
    roundDouble ((m : F) * 2 ^ k) = m * 2 ^ k := by
  rcases eq_or_ne m 0 with h0 | h0
  · rw [h0]
    simp [roundDouble_zero]
  · have hx : (m : F) * 2 ^ k ≠ 0 :=
      mul_ne_zero (by exact_mod_cast h0) (two_zpow_pos k).ne'
    have habs : |(m : F) * 2 ^ k| < 2 ^ (k + 53) := by
      rw [abs_mul, abs_of_pos (two_zpow_pos (F := F) k), add_comm,
        zpow_add₀ (by norm_num : (2 : F) ≠ 0)]
      apply mul_lt_mul_of_pos_right _ (two_zpow_pos k)
      have : ((|m| : ℤ) : F) < ((2 ^ 53 : ℤ) : F) := by exact_mod_cast hm
      rw [Int.cast_abs] at this
      exact_mod_cast this
    have hlog : Int.log 2 |(m : F) * 2 ^ k| < k + 53 :=
      (Int.lt_zpow_iff_log_lt (by norm_num : 1 < 2) (abs_pos.mpr hx)).mp (by simpa using habs)
    have he : binade ((m : F) * 2 ^ k) - 52 ≤ k := by
      unfold binade
      have := max_le (a := Int.log 2 |(m : F) * 2 ^ k|) (b := -1022) (c := k + 52)
        (by omega) (by omega)
      omega
    obtain ⟨j, hj⟩ := Int.eq_ofNat_of_zero_le (sub_nonneg.mpr he)
    have hk2 : k = (j : ℤ) + (binade ((m : F) * 2 ^ k) - 52) := by omega
    have hsplit : (2 : F) ^ k = 2 ^ j * 2 ^ (binade ((m : F) * 2 ^ k) - 52) := by
      nth_rewrite 1 [hk2]
      rw [zpow_add₀ (by norm_num : (2 : F) ≠ 0), zpow_natCast]
    have hs := two_zpow_pos (F := F) (binade ((m : F) * 2 ^ k) - 52)
    have hq : (m : F) * 2 ^ k / 2 ^ (binade ((m : F) * 2 ^ k) - 52) = ((m * 2 ^ j : ℤ) : F) := by
      rw [div_eq_iff hs.ne']
      nth_rewrite 1 [hsplit]
      push_cast
      ring
    unfold roundDouble
    rw [hq, roundHalfEven_intCast]
    nth_rewrite 2 [hsplit]
    push_cast
    ring

/-- Rounding a non-negative number twice is rounding it once. -/
theorem roundDouble_idem {x : F} (hx : 0 ≤ x) :
    roundDouble (roundDouble x) = roundDouble x := by
  have hs := two_zpow_pos (F := F) (binade x - 52)
  have h1 := lt_two_zpow_binade x
  rw [abs_of_nonneg hx, two_zpow_split] at h1
  have h2 : x / 2 ^ (binade x - 52) ≤ 2 ^ 53 := by
    rw [div_le_iff₀ hs]
    exact h1.le
  have h3 := roundHalfEven_mono h2
  rw [roundHalfEven_two_pow] at h3
  have h0 : (0 : ℤ) ≤ roundHalfEven (x / 2 ^ (binade x - 52)) := by
    have hz : roundHalfEven (0 : F) = 0 := by
      have := roundHalfEven_intCast (F := F) 0
      simpa using this
    rw [← hz]
    exact roundHalfEven_mono (div_nonneg hx hs.le)
  have hb := binade_ge x
  rcases h3.eq_or_lt with heq | hlt
  · have hval : roundDouble x = ((1 : ℤ) : F) * 2 ^ (binade x + 1) := by
      unfold roundDouble
      rw [heq, two_zpow_split]
      push_cast
      ring
    rw [hval]
    exact roundDouble_fix 1 (binade x + 1) (by norm_num) (by omega)
  · unfold roundDouble
    exact roundDouble_fix _ _ (by rw [abs_of_nonneg h0]; exact hlt) (by omega)

end Rounding

section Evaluation

variable {F : Type} [LinearOrderedField F] [FloorRing F]

theorem roundHalfEven_tie_down (q : F) (n : ℤ) (hn : n % 2 = 0) (h : q = n + 1 / 2) :
    roundHalfEven q = n := by
  have hf : ⌊q⌋ = n := by
    rw [Int.floor_eq_iff]
    constructor <;> linarith
  unfold roundHalfEven
  rw [hf, if_neg (by linarith), if_neg (by linarith), if_pos hn]

theorem roundDouble_eval (x v : F) (e n : ℤ) (he : -1022 ≤ e) (hx : 0 < x)
    (h1 : 2 ^ e ≤ x) (h2 : x < 2 ^ (e + 1)) (hn : |x / 2 ^ (e - 52) - n| < 1 / 2)
    (hv : (n : F) * 2 ^ (e - 52) = v) : roundDouble x = v := by
  rw [← hv]
  apply roundDouble_eq x e n he
  · rwa [abs_of_pos hx]
  · rwa [abs_of_pos hx]
  · exact roundHalfEven_of_abs_lt _ _ hn

theorem roundDouble_eval_tie_up (x v : F) (e n : ℤ) (he : -1022 ≤ e) (hx : 0 < x)
    (h1 : 2 ^ e ≤ x) (h2 : x < 2 ^ (e + 1)) (hn : x / 2 ^ (e - 52) = n - 1 / 2)
    (hev : n % 2 = 0) (hv : (n : F) * 2 ^ (e - 52) = v) : roundDouble x = v := by
  rw [← hv]
  apply roundDouble_eq x e n he
  · rwa [abs_of_pos hx]
  · rwa [abs_of_pos hx]
  · exact roundHalfEven_tie_up _ _ hev hn

theorem roundDouble_eval_tie_down (x v : F) (e n : ℤ) (he : -1022 ≤ e) (hx : 0 < x)
    (h1 : 2 ^ e ≤ x) (h2 : x < 2 ^ (e + 1)) (hn : x / 2 ^ (e - 52) = n + 1 / 2)
    (hev : n % 2 = 0) (hv : (n : F) * 2 ^ (e - 52) = v) : roundDouble x = v := by
  rw [← hv]
  apply roundDouble_eq x e n he
  · rwa [abs_of_pos hx]
  · rwa [abs_of_pos hx]
  · exact roundHalfEven_tie_down _ _ hev hn

theorem roundDouble_intCast (m : ℤ) (hm : |m| < 2 ^ 53) : roundDouble (m : F) = m := by
  have h := roundDouble_fix (F := F) m 0 hm (by norm_num)
  simpa using h

theorem roundDouble_one : roundDouble (1 : F) = 1 := by
  have h := roundDouble_intCast (F := F) 1 (by norm_num)
  simpa using h

theorem roundDouble_two : roundDouble (2 : F) = 2 := by
  have h := roundDouble_intCast (F := F) 2 (by norm_num)
  simpa using h

theorem roundDouble_four : roundDouble (4 : F) = 4 := by
  have h := roundDouble_intCast (F := F) 4 (by norm_num)
  simpa using h

theorem roundDouble_40 : roundDouble (40 : F) = 40 := by
  have h := roundDouble_intCast (F := F) 40 (by norm_num)
  simpa using h

theorem roundDouble_60 : roundDouble (60 : F) = 60 := by
  have h := roundDouble_intCast (F := F) 60 (by norm_num)
  simpa using h

theorem roundDouble_100 : roundDouble (100 : F) = 100 := by
  have h := roundDouble_intCast (F := F) 100 (by norm_num)
  simpa using h

theorem roundDouble_150 : roundDouble (150 : F) = 150 := by
  have h := roundDouble_intCast (F := F) 150 (by norm_num)
  simpa using h

theorem roundDouble_200 : roundDouble (200 : F) = 200 := by
  have h := roundDouble_intCast (F := F) 200 (by norm_num)
  simpa using h

theorem roundDouble_350 : roundDouble (350 : F) = 350 := by
  have h := roundDouble_intCast (F := F) 350 (by norm_num)
  simpa using h

/-- The Number that the literal `0.8` denotes. -/
theorem roundDouble_literal_08 :
    roundDouble (8 / 10 : F) = 3602879701896397 / 2 ^ 52 := by
  apply roundDouble_eval (8 / 10) _ (-1) 7205759403792794 <;> norm_num [abs_lt]

/-- The Number that the literal `0.2` denotes. -/
theorem roundDouble_literal_02 :
    roundDouble (2 / 10 : F) = 3602879701896397 / 2 ^ 54 := by
  apply roundDouble_eval (2 / 10) _ (-3) 7205759403792794 <;> norm_num [abs_lt]

/-- The Number that the literal `0.6` denotes. -/
theorem roundDouble_literal_06 :
    roundDouble (6 / 10 : F) = 5404319552844595 / 2 ^ 53 := by
  apply roundDouble_eval (6 / 10) _ (-1) 5404319552844595 <;> norm_num [abs_lt]

/-- The Number that the literal `0.4` denotes. -/
theorem roundDouble_literal_04 :
    roundDouble (4 / 10 : F) = 3602879701896397 / 2 ^ 53 := by
  apply roundDouble_eval (4 / 10) _ (-2) 7205759403792794 <;> norm_num [abs_lt]

theorem roundDouble_08_add_02 :
    roundDouble (roundDouble (8 / 10 : F) + roundDouble (2 / 10)) = 1 := by
  rw [roundDouble_literal_08, roundDouble_literal_02]
  apply roundDouble_eval _ _ 0 (2 ^ 52) <;> norm_num [abs_lt]

theorem roundDouble_06_add_04 :
    roundDouble (roundDouble (6 / 10 : F) + roundDouble (4 / 10)) = 1 := by
  rw [roundDouble_literal_06, roundDouble_literal_04]
  have h : (5404319552844595 / 2 ^ 53 + 3602879701896397 / 2 ^ 53 : F) = 1 := by norm_num
  rw [h, roundDouble_one]

theorem roundDouble_60_mul_08 : roundDouble ((60 : F) * roundDouble (8 / 10)) = 48 := by
  rw [roundDouble_literal_08]
  apply roundDouble_eval _ _ 5 (48 * 2 ^ 47) <;> norm_num [abs_lt]

theorem roundDouble_150_mul_06 : roundDouble ((150 : F) * roundDouble (6 / 10)) = 90 := by
  rw [roundDouble_literal_06]
  apply roundDouble_eval _ _ 6 (90 * 2 ^ 46) <;> norm_num [abs_lt]

theorem roundDouble_Math_PI : roundDouble (Math_PI : F) = Math_PI := by
  have h := roundDouble_fix (F := F) 884279719003555 (-48) (by norm_num) (by norm_num)
  have e : ((884279719003555 : ℤ) : F) * 2 ^ (-48 : ℤ) = Math_PI := by
    unfold Math_PI
    norm_num
  rwa [e] at h

theorem roundDouble_Math_PI_mul_two : roundDouble ((Math_PI : F) * 2) = Math_PI * 2 := by
  have h := roundDouble_fix (F := F) 884279719003555 (-47) (by norm_num) (by norm_num)
  have e : ((884279719003555 : ℤ) : F) * 2 ^ (-47 : ℤ) = Math_PI * 2 := by
    unfold Math_PI
    norm_num
  rwa [e] at h

end Evaluation
section InitialisationLemmas

variable {F : Type} [LinearOrderedField F] [FloorRing F]

theorem roundDouble_add_draw (d lo w : F) (hd0 : 0 ≤ d) (hd1 : d < 1) (hlo : 0 ≤ lo)
    (hw : 0 ≤ w) (hflo : roundDouble lo = lo) (hfw : roundDouble w = w) :
    lo ≤ roundDouble (lo + roundDouble (d * w)) ∧
    roundDouble (lo + roundDouble (d * w)) ≤ roundDouble (lo + w) := by
  have h0 : 0 ≤ roundDouble (d * w) := roundDouble_nonneg (mul_nonneg hd0 hw)
  have h1 : roundDouble (d * w) ≤ w := by
    have := roundDouble_mono (mul_nonneg hd0 hw) (by nlinarith : d * w ≤ w)
    rwa [hfw] at this
  constructor
  · have := roundDouble_mono hlo (by linarith : lo ≤ lo + roundDouble (d * w))
    rwa [hflo] at this
  · exact roundDouble_mono (by linarith) (by linarith)

theorem roundDouble_scaled (a f lo : F) (ha : 0 ≤ a) (hfa : roundDouble a = a)
    (hlo : 0 ≤ lo) (h1 : lo ≤ f) (h2 : f ≤ 1) :
    roundDouble (a * lo) ≤ roundDouble (a * f) ∧ roundDouble (a * f) ≤ a := by
  constructor
  · exact roundDouble_mono (mul_nonneg ha hlo) (mul_le_mul_of_nonneg_left h1 ha)
  · have := roundDouble_mono (mul_nonneg ha (hlo.trans h1)) (by nlinarith : a * f ≤ a)
    rwa [hfa] at this

theorem roundDouble_literal_nonneg :
    (0 : F) ≤ roundDouble (8 / 10) ∧ (0 : F) ≤ roundDouble (2 / 10) ∧
    (0 : F) ≤ roundDouble (6 / 10) ∧ (0 : F) ≤ roundDouble (4 / 10) :=
  ⟨roundDouble_nonneg (by norm_num), roundDouble_nonneg (by norm_num),
   roundDouble_nonneg (by norm_num), roundDouble_nonneg (by norm_num)⟩

/-- The constant fields that one pass of the initialisation loop computes in
doubles, for draws in `[0, 1)`. -/
theorem mkAsteroid_shape (M : JSMath F) (rnd : Nat → F)
    (hrnd : ∀ k, 0 ≤ rnd k ∧ rnd k < 1) (i : Nat) :
    InitShape i (mkAsteroid roundDouble M rnd i) ∧
    (i < 5 → roundDouble ((mkAsteroid roundDouble M rnd i).a * roundDouble (8 / 10)) ≤
      (mkAsteroid roundDouble M rnd i).b) ∧
    (5 ≤ i → roundDouble ((mkAsteroid roundDouble M rnd i).a * roundDouble (6 / 10)) ≤
      (mkAsteroid roundDouble M rnd i).b) := by
  obtain ⟨h0, h1⟩ := hrnd (4 * i)
  obtain ⟨h2, h3⟩ := hrnd (4 * i + 1)
  obtain ⟨h4, h5⟩ := hrnd (4 * i + 3)
  obtain ⟨n8, n2, n6, n4⟩ := roundDouble_literal_nonneg (F := F)
  have hsize := roundDouble_add_draw (rnd (4 * i + 3)) 2 2 h4 h5 (by norm_num) (by norm_num)
    roundDouble_two roundDouble_two
  have e4 : (2 : F) + 2 = 4 := by norm_num
  rw [e4, roundDouble_four] at hsize
  by_cases hi : i < 5
  · have ha := roundDouble_add_draw (rnd (4 * i)) 60 40 h0 h1 (by norm_num) (by norm_num)
      roundDouble_60 roundDouble_40
    have e100 : (60 : F) + 40 = 100 := by norm_num
    rw [e100, roundDouble_100] at ha
    have hf := roundDouble_add_draw (rnd (4 * i + 1)) (roundDouble (8 / 10))
      (roundDouble (2 / 10)) h2 h3 n8 n2 (roundDouble_idem (by norm_num))
      (roundDouble_idem (by norm_num))
    rw [roundDouble_08_add_02] at hf
    have hidem : roundDouble (roundDouble (60 + roundDouble (rnd (4 * i) * 40))) =
        roundDouble (60 + roundDouble (rnd (4 * i) * 40)) :=
      roundDouble_idem (add_nonneg (by norm_num)
        (roundDouble_nonneg (mul_nonneg h0 (by norm_num))))
    have hb := roundDouble_scaled _ _ _ (by linarith [ha.1]) hidem n8 hf.1 hf.2
    have h48 : (48 : F) ≤ roundDouble (roundDouble (60 + roundDouble (rnd (4 * i) * 40)) *
        roundDouble (8 / 10)) := by
      rw [← roundDouble_60_mul_08]
      exact roundDouble_mono (mul_nonneg (by norm_num) n8)
        (mul_le_mul_of_nonneg_right ha.1 n8)
    refine ⟨⟨?_, ?_, ?_⟩, ?_, ?_⟩
    · intro _
      simp only [mkAsteroid, hi, if_true]
      exact ⟨ha, h48.trans hb.1, hb.2⟩
    · intro h5
      omega
    · exact hsize
    · intro _
      simp only [mkAsteroid, hi, if_true]
      exact hb.1
    · intro h5
      omega
  · have ha := roundDouble_add_draw (rnd (4 * i)) 150 200 h0 h1 (by norm_num) (by norm_num)
      roundDouble_150 roundDouble_200
    have e350 : (150 : F) + 200 = 350 := by norm_num
    rw [e350, roundDouble_350] at ha
    have hf := roundDouble_add_draw (rnd (4 * i + 1)) (roundDouble (6 / 10))
      (roundDouble (4 / 10)) h2 h3 n6 n4 (roundDouble_idem (by norm_num))
      (roundDouble_idem (by norm_num))
    rw [roundDouble_06_add_04] at hf
    have hidem : roundDouble (roundDouble (150 + roundDouble (rnd (4 * i) * 200))) =
        roundDouble (150 + roundDouble (rnd (4 * i) * 200)) :=
      roundDouble_idem (add_nonneg (by norm_num)
        (roundDouble_nonneg (mul_nonneg h0 (by norm_num))))
    have hb := roundDouble_scaled _ _ _ (by linarith [ha.1]) hidem n6 hf.1 hf.2
    have h90 : (90 : F) ≤ roundDouble (roundDouble (150 + roundDouble (rnd (4 * i) * 200)) *
        roundDouble (6 / 10)) := by
      rw [← roundDouble_150_mul_06]
      exact roundDouble_mono (mul_nonneg (by norm_num) n6)
        (mul_le_mul_of_nonneg_right ha.1 n6)
    refine ⟨⟨?_, ?_, ?_⟩, ?_, ?_⟩
    · intro h5
      exact absurd h5 hi
    · intro _
      simp only [mkAsteroid, hi, if_false]
      exact ⟨ha, h90.trans hb.1, hb.2⟩
    · exact hsize
    · intro h5
      exact absurd h5 hi
    · intro _
      simp only [mkAsteroid, hi, if_false]
      exact hb.1

end InitialisationLemmas
section Collision

variable {F : Type} [LinearOrderedField F]

theorem checkCollision_state (a : Asteroid F) :
    (checkCollision a).state = hazardOf a.r a.size := by
  unfold checkCollision hazardOf
  simp only [DANGER_RADIUS, EARTH_radius]
  split_ifs <;> rfl

theorem checkCollision_r (a : Asteroid F) : (checkCollision a).r = a.r := by
  unfold checkCollision
  simp only
  split_ifs <;> rfl

theorem checkCollision_size (a : Asteroid F) : (checkCollision a).size = a.size := by
  unfold checkCollision
  simp only
  split_ifs <;> rfl

theorem checkCollision_trail (a : Asteroid F) : (checkCollision a).trail = a.trail := by
  unfold checkCollision
  simp only
  split_ifs <;> rfl

theorem checkCollision_a (a : Asteroid F) : (checkCollision a).a = a.a := by
  unfold checkCollision
  simp only
  split_ifs <;> rfl

theorem checkCollision_b (a : Asteroid F) : (checkCollision a).b = a.b := by
  unfold checkCollision
  simp only
  split_ifs <;> rfl

theorem checkCollision_angle (a : Asteroid F) : (checkCollision a).angle = a.angle := by
  unfold checkCollision
  simp only
  split_ifs <;> rfl

theorem hazardOf_normal_iff (r size : F) :
    hazardOf r size = HazardState.normal ↔ 100 ≤ r := by
  unfold hazardOf
  split_ifs with h1 h2
  · simp [not_le.mpr h1]
  · simp [not_le.mpr h1]
  · simp [not_lt.mp h1]

theorem hazardOf_near_iff (r size : F) :
    hazardOf r size = HazardState.near ↔ r < 100 ∧ 15 + size + 5 < r := by
  unfold hazardOf
  split_ifs with h1 h2
  · simp [h1, not_lt.mpr h2]
  · simp [h1, not_le.mp h2]
  · simp [h1]

theorem hazardOf_hit_iff (r size : F) :
    hazardOf r size = HazardState.hit ↔ r < 100 ∧ r ≤ 15 + size + 5 := by
  unfold hazardOf
  split_ifs with h1 h2
  · simp [h1, h2]
  · simp [h1, h2]
  · simp [h1]

/-- C1: `checkCollision` sets the state to `normal` exactly when `r >= 100`, to
a hazard state (`near` or `hit`) exactly when `r < 100`, and to `near` exactly
when `r < 100` and `r > earthRadius + size + 5`; the state it sets is a function
of `r` and `size` alone, whatever the other fields (the previous state among
them) hold, and `r = 50`, `size = 3` gives `near`. -/
theorem checkCollision_classifies (a : Asteroid F) :
    ((checkCollision a).state = HazardState.normal ↔ DANGER_RADIUS ≤ a.r) ∧
    (((checkCollision a).state = HazardState.near ∨
        (checkCollision a).state = HazardState.hit) ↔ a.r < DANGER_RADIUS) ∧
    ((checkCollision a).state = HazardState.near ↔
        (a.r < DANGER_RADIUS ∧ EARTH_radius + a.size + 5 < a.r)) ∧
    (∀ a2 : Asteroid F, (checkCollision { a2 with r := a.r, size := a.size }).state =
        (checkCollision a).state) ∧
    (checkCollision { a with r := 50, size := 3 }).state = HazardState.near := by
  refine ⟨?_, ?_, ?_, ?_, ?_⟩
  · rw [checkCollision_state]
    exact hazardOf_normal_iff _ _
  · simp only [checkCollision_state, hazardOf_near_iff, hazardOf_hit_iff, DANGER_RADIUS]
    constructor
    · rintro (h | h) <;> exact h.1
    · intro h
      rcases lt_or_le (15 + a.size + 5) a.r with h2 | h2
      · exact Or.inl ⟨h, h2⟩
      · exact Or.inr ⟨h, h2⟩
  · rw [checkCollision_state]
    exact hazardOf_near_iff _ _
  · intro a2
    rw [checkCollision_state, checkCollision_state]
  · rw [checkCollision_state, hazardOf_near_iff]
    norm_num

end Collision

section CollisionHit

variable {F : Type} [LinearOrderedField F] [FloorRing F]

/-- C2: for every asteroid and every distance `r`, if `r <= earthRadius + size + 5`
then `checkCollision` sets the state to `hit`, for every size with
`earthRadius + size + 5 < 100`, which every size that initialisation assigns
satisfies (sizes lie in `[2, 4]` and no other code writes `size`), and for any
size at all when `r < 100`; in particular `r = 22` with `size = 3` gives `hit`,
and the boundary `r = earthRadius + size + 5` itself is `hit`. -/
theorem checkCollision_hit (a : Asteroid F) (hr : a.r ≤ EARTH_radius + a.size + 5)
    (hd : a.r < DANGER_RADIUS ∨ EARTH_radius + a.size + 5 < (DANGER_RADIUS : F)) :
    (checkCollision a).state = HazardState.hit ∧
    (checkCollision { a with r := 22, size := 3 }).state = HazardState.hit ∧
    (EARTH_radius + a.size + 5 < (DANGER_RADIUS : F) →
      (checkCollision { a with r := EARTH_radius + a.size + 5 }).state = HazardState.hit) ∧
    (∀ (M : JSMath F) (rnd : Nat → F), (∀ k, 0 ≤ rnd k ∧ rnd k < 1) → ∀ i : Nat,
      EARTH_radius + (mkAsteroid roundDouble M rnd i).size + 5 < (DANGER_RADIUS : F)) := by
  simp only [DANGER_RADIUS, EARTH_radius] at hr hd ⊢
  have h100 : a.r < 100 := by
    rcases hd with hd | hd
    · exact hd
    · exact lt_of_le_of_lt hr hd
  refine ⟨?_, ?_, ?_, ?_⟩
  · rw [checkCollision_state, hazardOf_hit_iff]
    exact ⟨h100, hr⟩
  · rw [checkCollision_state, hazardOf_hit_iff]
    norm_num
  · intro hs
    rw [checkCollision_state, hazardOf_hit_iff]
    exact ⟨hs, le_refl _⟩
  · intro M rnd hrnd i
    have h := (mkAsteroid_shape M rnd hrnd i).1.2.2.2
    linarith

theorem checkCollision_hit_witness :
    ((sampleAsteroid (22 : ℚ) 3 []).r ≤ EARTH_radius + (sampleAsteroid (22 : ℚ) 3 []).size + 5 ∧
      ((sampleAsteroid (22 : ℚ) 3 []).r < DANGER_RADIUS ∨
        EARTH_radius + (sampleAsteroid (22 : ℚ) 3 []).size + 5 < (DANGER_RADIUS : ℚ))) ∧
    (checkCollision (sampleAsteroid (22 : ℚ) 3 [])).state = HazardState.hit :=
  ⟨⟨by norm_num [EARTH_radius, sampleAsteroid],
    Or.inl (by norm_num [DANGER_RADIUS, sampleAsteroid])⟩,
   (checkCollision_hit (sampleAsteroid (22 : ℚ) 3 [])
    (by norm_num [EARTH_radius, sampleAsteroid])
    (Or.inl (by norm_num [DANGER_RADIUS, sampleAsteroid]))).1⟩

end CollisionHit

section Slider

variable {F : Type} [LinearOrderedField F]

/-- C5: the speed-slider callback sets the multiplier to the slider value
divided by `40`; for a slider value `v` in `[1, 100]` the multiplier lies in
`[0.025, 2.5]`; the map is linear in the slider value; `40` gives `1`, `100`
gives `2.5` and `1` gives `0.025`. -/
theorem speedInput_linear_map (c : Controls F) (v : F) (h1 : 1 ≤ v) (h100 : v ≤ 100) :
    (speedInput c v).speedMultiplier = v / 40 ∧
    (25 / 1000 ≤ (speedInput c v).speedMultiplier ∧
      (speedInput c v).speedMultiplier ≤ 25 / 10) ∧
    (∀ k u w : F, (speedInput c (k * u + w)).speedMultiplier =
      k * (speedInput c u).speedMultiplier + (speedInput c w).speedMultiplier) ∧
    (speedInput c 40).speedMultiplier = 1 ∧
    (speedInput c 100).speedMultiplier = 25 / 10 ∧
    (speedInput c 1).speedMultiplier = 25 / 1000 := by
  simp only [speedInput]
  refine ⟨trivial, ⟨?_, ?_⟩, ?_, ?_, ?_, ?_⟩
  · rw [le_div_iff₀ (by norm_num : (0 : F) < 40)]
    linarith
  · rw [div_le_iff₀ (by norm_num : (0 : F) < 40)]
    linarith
  · intro k u w
    ring
  · norm_num
  · norm_num
  · norm_num

theorem speedInput_linear_map_witness :
    ((1 : ℚ) ≤ 60 ∧ (60 : ℚ) ≤ 100) ∧
    (speedInput (sampleControls true false (1 : ℚ)) 60).speedMultiplier = 60 / 40 :=
  ⟨⟨by norm_num, by norm_num⟩,
   (speedInput_linear_map (sampleControls true false (1 : ℚ)) 60 (by norm_num)
    (by norm_num)).1⟩

/-- C6 at the ends of the slider range: the callback maps the slider value `1` to
`0.025`, which is below `0.1`, and the slider value `100` to `2.5`, which is
below `3.0`; the range `0.1-3.0` of the comment at line 236 is not what the
division by `40` produces. -/
theorem speedInput_misses_documented_range :
    (speedInput (sampleControls true false (1 : ℚ)) 1).speedMultiplier = 25 / 1000 ∧
    (speedInput (sampleControls true false (1 : ℚ)) 1).speedMultiplier < 1 / 10 ∧
    (speedInput (sampleControls true false (1 : ℚ)) 100).speedMultiplier = 25 / 10 ∧
    (speedInput (sampleControls true false (1 : ℚ)) 100).speedMultiplier < 3 := by
  simp only [speedInput]
  norm_num

end Slider

section TrailBuffer

variable {F : Type}

theorem updateTrail_length_le (st : Bool) (trail : List (Point F)) (x y : F)
    (h : trail.length ≤ MAX_TRAIL_LENGTH) :
    (updateTrail st trail x y).length ≤ MAX_TRAIL_LENGTH := by
  unfold updateTrail
  cases st
  · simp
  · simp only [if_true]
    split_ifs with h1
    · simp only [List.length_tail, List.length_append, List.length_singleton]
      omega
    · exact not_lt.mp h1

end TrailBuffer

section Trails

variable {F : Type} [LinearOrderedField F]

theorem animateOne_trail (M : JSMath F) (c : Controls F) (cx cy : F) (a : Asteroid F) :
    (animateOne M c cx cy a).trail =
      updateTrail c.showTrails a.trail (cx + a.a * M.cos a.angle)
        (cy + a.b * M.sin a.angle) := by
  simp only [animateOne, checkCollision_trail, updateAsteroid]

theorem animate_trail_le (M : JSMath F) (c : Controls F) (as : List (Asteroid F))
    (h : ∀ a ∈ as, a.trail.length ≤ MAX_TRAIL_LENGTH) :
    ∀ a ∈ animate M c as, a.trail.length ≤ MAX_TRAIL_LENGTH := by
  unfold animate
  split_ifs with hp
  · exact h
  · intro a ha
    simp only [List.mem_map] at ha
    obtain ⟨a0, ha0, rfl⟩ := ha
    rw [animateOne_trail]
    exact updateTrail_length_le _ _ _ _ (h a0 ha0)

theorem runFrames_trail_le (M : JSMath F) (cs : List (Controls F)) :
    ∀ as : List (Asteroid F), (∀ a ∈ as, a.trail.length ≤ MAX_TRAIL_LENGTH) →
      ∀ a ∈ runFrames M cs as, a.trail.length ≤ MAX_TRAIL_LENGTH := by
  induction cs with
  | nil => intro as h; exact h
  | cons c cs ih =>
    intro as h
    exact ih (animate M c as) (animate_trail_le M c as h)

theorem initAsteroids_trail (rd : F → F) (M : JSMath F) (rnd : Nat → F) :
    ∀ a ∈ initAsteroids rd M rnd, a.trail = [] := by
  intro a ha
  simp only [initAsteroids, List.mem_map] at ha
  obtain ⟨i, _, rfl⟩ := ha
  rfl

/-- C3: starting from the array that initialisation creates (whatever the
rounding of its arithmetic), after any sequence of calls of `animate`, each with
its own values of `showTrails`, `isPaused` and the speed multiplier, every trail
has length at most `20`; and after one unpaused call with `showTrails = false`,
on any array of asteroids, every trail is empty. -/
theorem trail_bounded_and_cleared (rd : F → F) (M : JSMath F) (rnd : Nat → F)
    (cs : List (Controls F)) (as : List (Asteroid F)) (c : Controls F)
    (hp : c.isPaused = false) (ht : c.showTrails = false) :
    (∀ a ∈ runFrames M cs (initAsteroids rd M rnd), a.trail.length ≤ 20) ∧
    (∀ a ∈ animate M c as, a.trail = []) ∧
    (animate M c as).length = as.length := by
  refine ⟨?_, ?_, ?_⟩
  · apply runFrames_trail_le
    intro a ha
    rw [initAsteroids_trail rd M rnd a ha]
    simp
  · intro a ha
    simp only [animate, hp, Bool.false_eq_true, if_false, List.mem_map] at ha
    obtain ⟨a0, _, rfl⟩ := ha
    rw [animateOne_trail, ht]
    rfl
  · simp [animate, hp]

theorem trail_bounded_and_cleared_witness :
    ((sampleControls false false (1 : ℝ)).isPaused = false ∧
      (sampleControls false false (1 : ℝ)).showTrails = false) ∧
    (∀ a ∈ animate (JSMath.mk Real.sqrt Real.cos Real.sin Real.pi)
        (sampleControls false false 1) [sampleAsteroid 50 3 [Point.mk 1 2, Point.mk 3 4]],
      a.trail = []) :=
  ⟨⟨rfl, rfl⟩,
   (trail_bounded_and_cleared roundDouble (JSMath.mk Real.sqrt Real.cos Real.sin Real.pi)
      (fun _ => 1 / 2) [sampleControls true false 1]
      [sampleAsteroid 50 3 [Point.mk 1 2, Point.mk 3 4]]
      (sampleControls false false 1) rfl rfl).2.1⟩

/-- C4: a call of `animate` while `isPaused` is true returns the array of
asteroids unchanged, so after any number of consecutive paused calls, whatever
`showTrails`, the speed multiplier and the canvas size are at each call, every
asteroid has all its fields (`angle`, `x`, `y`, `r`, `vx`, `vy`, `state`, `trail`)
as before the first of them. -/
theorem paused_frames_change_nothing (M : JSMath F) (cs : List (Controls F))
    (as : List (Asteroid F)) (hp : ∀ c ∈ cs, c.isPaused = true) :
    runFrames M cs as = as := by
  induction cs with
  | nil => rfl
  | cons c cs ih =>
    have hc : c.isPaused = true := hp c (List.mem_cons_self _ _)
    have h1 : animate M c as = as := by simp [animate, hc]
    show runFrames M cs (animate M c as) = as
    rw [h1]
    exact ih (fun c0 h0 => hp c0 (List.mem_cons_of_mem _ h0))

theorem paused_frames_change_nothing_witness :
    (∀ c ∈ [sampleControls true true (1 : ℝ), sampleControls false true 2],
      c.isPaused = true) ∧
    runFrames (JSMath.mk Real.sqrt Real.cos Real.sin Real.pi)
      [sampleControls true true (1 : ℝ), sampleControls false true 2]
      [sampleAsteroid 50 3 [Point.mk 1 2]] = [sampleAsteroid 50 3 [Point.mk 1 2]] :=
  ⟨by simp [sampleControls],
   paused_frames_change_nothing (JSMath.mk Real.sqrt Real.cos Real.sin Real.pi)
    [sampleControls true true (1 : ℝ), sampleControls false true 2]
    [sampleAsteroid 50 3 [Point.mk 1 2]] (by simp [sampleControls])⟩

end Trails

section Motion

theorem isRealMath_mk : IsRealMath (JSMath.mk Real.sqrt Real.cos Real.sin Real.pi) :=
  ⟨rfl, rfl, rfl, rfl⟩

theorem updateAsteroid_r (M : JSMath ℝ) (hM : IsRealTrig M) (st : Bool) (a : Asteroid ℝ)
    (cx cy : ℝ) :
    (updateAsteroid M st a cx cy).r =
      Real.sqrt (a.a ^ 2 * Real.cos a.angle ^ 2 + a.b ^ 2 * Real.sin a.angle ^ 2) := by
  obtain ⟨h1, h2, h3⟩ := hM
  simp only [updateAsteroid, h1, h2, h3]
  congr 1
  ring

theorem animateOne_r (M : JSMath ℝ) (c : Controls ℝ) (cx cy : ℝ) (a : Asteroid ℝ) :
    (animateOne M c cx cy a).r = (updateAsteroid M c.showTrails a cx cy).r := by
  simp only [animateOne, checkCollision_r, updateAsteroid]

/-- C7: after `updateAsteroid` the stored position is `x = cx + a*cos(theta)`,
`y = cy + b*sin(theta)` for the angle `theta` held before the call, the stored
distance is `r = sqrt((x - cx)^2 + (y - cy)^2) = sqrt(a^2*cos(theta)^2 +
b^2*sin(theta)^2)` over the reals, and after the following `checkCollision`
(which keeps `x`, `y` and `r`) the stored state is the classification of that
same `r`; the same holds for the asteroid that one pass of the loop of `animate`
leaves. -/
theorem updateAsteroid_position_distance (M : JSMath ℝ) (hM : IsRealMath M) (st : Bool)
    (c : Controls ℝ) (a : Asteroid ℝ) (cx cy : ℝ) :
    (updateAsteroid M st a cx cy).x = cx + a.a * Real.cos a.angle ∧
    (updateAsteroid M st a cx cy).y = cy + a.b * Real.sin a.angle ∧
    (updateAsteroid M st a cx cy).r =
      Real.sqrt (((updateAsteroid M st a cx cy).x - cx) ^ 2 +
        ((updateAsteroid M st a cx cy).y - cy) ^ 2) ∧
    (updateAsteroid M st a cx cy).r =
      Real.sqrt (a.a ^ 2 * Real.cos a.angle ^ 2 + a.b ^ 2 * Real.sin a.angle ^ 2) ∧
    (checkCollision (updateAsteroid M st a cx cy)).state =
      hazardOf (updateAsteroid M st a cx cy).r a.size ∧
    (checkCollision (updateAsteroid M st a cx cy)).r = (updateAsteroid M st a cx cy).r ∧
    (animateOne M c cx cy a).r =
      Real.sqrt (((animateOne M c cx cy a).x - cx) ^ 2 +
        ((animateOne M c cx cy a).y - cy) ^ 2) ∧
    (animateOne M c cx cy a).state =
      hazardOf (animateOne M c cx cy a).r (animateOne M c cx cy a).size := by
  have hr := updateAsteroid_r M ⟨hM.1, hM.2.1, hM.2.2.1⟩ st a cx cy
  obtain ⟨h1, h2, h3, _⟩ := hM
  refine ⟨?_, ?_, ?_, hr, ?_, checkCollision_r _, ?_, ?_⟩
  · simp only [updateAsteroid, h2]
  · simp only [updateAsteroid, h3]
  · simp only [updateAsteroid, h1]
    congr 1
    ring
  · rw [checkCollision_state]
    rfl
  · have hx : (animateOne M c cx cy a).x = cx + a.a * M.cos a.angle := by
      unfold animateOne checkCollision
      simp only
      split_ifs <;> rfl
    have hy : (animateOne M c cx cy a).y = cy + a.b * M.sin a.angle := by
      unfold animateOne checkCollision
      simp only
      split_ifs <;> rfl
    rw [animateOne_r, hx, hy]
    simp only [updateAsteroid, h1]
    congr 1
    ring
  · simp only [animateOne]
    rw [checkCollision_state, checkCollision_r, checkCollision_size]

theorem updateAsteroid_position_distance_witness :
    IsRealMath (JSMath.mk Real.sqrt Real.cos Real.sin Real.pi) ∧
    (updateAsteroid (JSMath.mk Real.sqrt Real.cos Real.sin Real.pi) true
      (sampleAsteroid 0 3 []) 400 300).x = 400 + 70 * Real.cos 0 :=
  ⟨isRealMath_mk,
   (updateAsteroid_position_distance (JSMath.mk Real.sqrt Real.cos Real.sin Real.pi)
      isRealMath_mk true (sampleControls true false 1) (sampleAsteroid 0 3 []) 400 300).1⟩

theorem animateOne_angle (M : JSMath ℝ) (c : Controls ℝ) (cx cy : ℝ) (a : Asteroid ℝ) :
    (animateOne M c cx cy a).angle =
      a.angle + GRAVITY_SCALE / M.sqrt (updateAsteroid M c.showTrails a cx cy).r *
        c.speedMultiplier := by
  simp only [animateOne, checkCollision_angle, updateAsteroid]

/-- C8: for an asteroid whose computed distance `r` is positive, one call of
`updateAsteroid` advances the angle by exactly `(0.15 / sqrt(r)) * m`, where `r`
is the distance computed in that call and `m` the multiplier stored on the
asteroid, which `animate` copies from the controls before the call; with `m = 0`
the angle is unchanged, and the advancement under the multiplier `k*m` is `k`
times the advancement under `m`. -/
theorem updateAsteroid_angle_advance (M : JSMath ℝ) (hM : IsRealMath M) (st : Bool)
    (c : Controls ℝ) (a : Asteroid ℝ) (cx cy : ℝ)
    (hr : 0 < (updateAsteroid M st a cx cy).r) :
    (updateAsteroid M st a cx cy).angle - a.angle =
      (15 / 100) / Real.sqrt (updateAsteroid M st a cx cy).r * a.speedMultiplier ∧
    (animateOne M c cx cy a).angle - a.angle =
      (15 / 100) / Real.sqrt (animateOne M c cx cy a).r * c.speedMultiplier ∧
    (animateOne M { c with speedMultiplier := 0 } cx cy a).angle = a.angle ∧
    (∀ k m : ℝ,
      (animateOne M { c with speedMultiplier := k * m } cx cy a).angle - a.angle =
        k * ((animateOne M { c with speedMultiplier := m } cx cy a).angle - a.angle)) := by
  have _ := hr
  obtain ⟨h1, _, _, _⟩ := hM
  refine ⟨?_, ?_, ?_, ?_⟩
  · simp only [updateAsteroid, h1, GRAVITY_SCALE]
    ring
  · rw [animateOne_angle, animateOne_r, h1, GRAVITY_SCALE]
    ring
  · rw [animateOne_angle]
    simp
  · intro k m
    rw [animateOne_angle, animateOne_angle]
    simp only [updateAsteroid]
    ring

theorem updateAsteroid_angle_advance_witness :
    (IsRealMath (JSMath.mk Real.sqrt Real.cos Real.sin Real.pi) ∧
      0 < (updateAsteroid (JSMath.mk Real.sqrt Real.cos Real.sin Real.pi) true
        (sampleAsteroid 0 3 []) 400 300).r) ∧
    (animateOne (JSMath.mk Real.sqrt Real.cos Real.sin Real.pi)
      { sampleControls true false 1 with speedMultiplier := 0 } 400 300
      (sampleAsteroid 0 3 [])).angle = 0 := by
  have hr : 0 < (updateAsteroid (JSMath.mk Real.sqrt Real.cos Real.sin Real.pi) true
      (sampleAsteroid 0 3 []) 400 300).r := by
    rw [updateAsteroid_r _ ⟨rfl, rfl, rfl⟩]
    apply Real.sqrt_pos.mpr
    simp [sampleAsteroid]
  exact ⟨⟨isRealMath_mk, hr⟩,
    (updateAsteroid_angle_advance (JSMath.mk Real.sqrt Real.cos Real.sin Real.pi)
      isRealMath_mk true (sampleControls true false 1) (sampleAsteroid 0 3 []) 400 300
      hr).2.2.1⟩

end Motion

section Initialisation

theorem initAsteroids_getElem? {F : Type} [LinearOrderedField F] (rd : F → F)
    (M : JSMath F) (rnd : Nat → F) (i : Nat) (a : Asteroid F)
    (h : (initAsteroids rd M rnd)[i]? = some a) : i < COUNT ∧ a = mkAsteroid rd M rnd i := by
  unfold initAsteroids at h
  rw [List.getElem?_map] at h
  by_cases hi : i < COUNT
  · rw [List.getElem?_range hi] at h
    simp only [Option.map_some', Option.some.injEq] at h
    exact ⟨hi, h.symm⟩
  · rw [List.getElem?_eq_none (by simpa using hi)] at h
    simp at h

theorem initAsteroids_getElem?_of_lt {F : Type} [LinearOrderedField F] (rd : F → F)
    (M : JSMath F) (rnd : Nat → F) (i : Nat) (hi : i < COUNT) :
    (initAsteroids rd M rnd)[i]? = some (mkAsteroid rd M rnd i) := by
  unfold initAsteroids
  rw [List.getElem?_map, List.getElem?_range hi]
  rfl

theorem math_PI_lt_pi : (Math_PI : ℝ) < Real.pi := by
  have h := Real.pi_gt_d20
  unfold Math_PI
  refine lt_trans ?_ h
  norm_num

/-- C9, as stated, fails in double arithmetic: with draws of `Math.random()`
that are doubles in `[0, 1)`, asteroid `0` gets `a = 100` and `b = a` (draws
`1 - 2^(-52)`), asteroid `5` gets `a = 350` and `b = a` (draws `1 - 2^(-53)`),
and asteroids `1` and `6` get `b` below the exact `0.8*a` and `0.6*a`. -/
theorem initAsteroids_reaches_range_ends :
    (∀ k : Nat, 0 ≤ (boundaryDraws k : ℝ) ∧ (boundaryDraws k : ℝ) < 1 ∧
      roundDouble (boundaryDraws k : ℝ) = boundaryDraws k) ∧
    (∃ a0 a1 a5 a6 : Asteroid ℝ,
      (initAsteroids roundDouble (JSMath.mk Real.sqrt Real.cos Real.sin Math_PI)
        boundaryDraws)[0]? = some a0 ∧
      (initAsteroids roundDouble (JSMath.mk Real.sqrt Real.cos Real.sin Math_PI)
        boundaryDraws)[1]? = some a1 ∧
      (initAsteroids roundDouble (JSMath.mk Real.sqrt Real.cos Real.sin Math_PI)
        boundaryDraws)[5]? = some a5 ∧
      (initAsteroids roundDouble (JSMath.mk Real.sqrt Real.cos Real.sin Math_PI)
        boundaryDraws)[6]? = some a6 ∧
      a0.a = 100 ∧ a0.b = a0.a ∧ a5.a = 350 ∧ a5.b = a5.a ∧
      a1.b < 8 / 10 * a1.a ∧ a6.b < 6 / 10 * a6.a) := by
  have l8 := roundDouble_literal_08 (F := ℝ)
  have l2 := roundDouble_literal_02 (F := ℝ)
  have l6 := roundDouble_literal_06 (F := ℝ)
  have l4 := roundDouble_literal_04 (F := ℝ)
  have z : roundDouble (0 : ℝ) = 0 := roundDouble_zero
  constructor
  · intro k
    unfold boundaryDraws
    split_ifs
    · refine ⟨by norm_num, by norm_num, ?_⟩
      have h := roundDouble_fix (F := ℝ) (2 ^ 52 - 1) (-52) (by norm_num) (by norm_num)
      have e : (((2 ^ 52 - 1 : ℤ) : ℝ)) * 2 ^ (-52 : ℤ) = 1 - 1 / 2 ^ 52 := by norm_num
      rwa [e] at h
    · refine ⟨by norm_num, by norm_num, ?_⟩
      have h := roundDouble_fix (F := ℝ) (2 ^ 50 + 3) (-51) (by norm_num) (by norm_num)
      have e : (((2 ^ 50 + 3 : ℤ) : ℝ)) * 2 ^ (-51 : ℤ) = 1 / 2 + 3 / 2 ^ 51 := by norm_num
      rwa [e] at h
    · refine ⟨by norm_num, by norm_num, ?_⟩
      have h := roundDouble_fix (F := ℝ) (2 ^ 53 - 1) (-53) (by norm_num) (by norm_num)
      have e : (((2 ^ 53 - 1 : ℤ) : ℝ)) * 2 ^ (-53 : ℤ) = 1 - 1 / 2 ^ 53 := by norm_num
      rwa [e] at h
    · refine ⟨by norm_num, by norm_num, ?_⟩
      have h := roundDouble_fix (F := ℝ) 1 (-49) (by norm_num) (by norm_num)
      have e : (((1 : ℤ) : ℝ)) * 2 ^ (-49 : ℤ) = 1 / 2 ^ 49 := by norm_num
      rwa [e] at h
    · exact ⟨le_refl _, by norm_num, roundDouble_zero⟩
  · refine ⟨_, _, _, _, initAsteroids_getElem?_of_lt _ _ _ 0 (by norm_num [COUNT]),
      initAsteroids_getElem?_of_lt _ _ _ 1 (by norm_num [COUNT]),
      initAsteroids_getElem?_of_lt _ _ _ 5 (by norm_num [COUNT]),
      initAsteroids_getElem?_of_lt _ _ _ 6 (by norm_num [COUNT]), ?_⟩
    -- asteroid 0
    have e1 : roundDouble ((1 - 1 / 2 ^ 52 : ℝ) * 40) = 40 - 1 / 2 ^ 47 := by
      apply roundDouble_eval _ _ 5 5629499534213119 <;> norm_num [abs_lt]
    have e2 : roundDouble ((60 : ℝ) + (40 - 1 / 2 ^ 47)) = 100 := by
      apply roundDouble_eval_tie_up _ _ 6 7036874417766400 <;> norm_num
    have e3 : roundDouble ((1 - 1 / 2 ^ 52 : ℝ) * (3602879701896397 / 2 ^ 54)) =
        900719925474099 / 2 ^ 52 := by
      apply roundDouble_eval _ _ (-3) 7205759403792792 <;> norm_num [abs_lt]
    have e4 : roundDouble ((3602879701896397 / 2 ^ 52 : ℝ) + 900719925474099 / 2 ^ 52) = 1 := by
      have h : (3602879701896397 / 2 ^ 52 : ℝ) + 900719925474099 / 2 ^ 52 = 1 := by norm_num
      rw [h, roundDouble_one]
    have e5 : roundDouble ((100 : ℝ) * 1) = 100 := by
      rw [mul_one, roundDouble_100]
    -- asteroid 5
    have f1 : roundDouble ((1 - 1 / 2 ^ 53 : ℝ) * 200) = 200 - 1 / 2 ^ 45 := by
      apply roundDouble_eval _ _ 7 7036874417766399 <;> norm_num [abs_lt]
    have f2 : roundDouble ((150 : ℝ) + (200 - 1 / 2 ^ 45)) = 350 := by
      apply roundDouble_eval_tie_up _ _ 8 6157265115545600 <;> norm_num
    have f3 : roundDouble ((1 - 1 / 2 ^ 53 : ℝ) * (3602879701896397 / 2 ^ 53)) =
        7205759403792793 / 2 ^ 54 := by
      apply roundDouble_eval _ _ (-2) 7205759403792793 <;> norm_num [abs_lt]
    have f4 : roundDouble ((5404319552844595 / 2 ^ 53 : ℝ) + 7205759403792793 / 2 ^ 54) = 1 := by
      apply roundDouble_eval_tie_up _ _ (-1) 9007199254740992 <;> norm_num
    have f5 : roundDouble ((350 : ℝ) * 1) = 350 := by
      rw [mul_one, roundDouble_350]
    -- asteroid 1
    have g1 : roundDouble ((1 / 2 + 3 / 2 ^ 51 : ℝ) * 40) = 20 + 15 / 2 ^ 48 := by
      apply roundDouble_eval _ _ 4 5629499534213135 <;> norm_num [abs_lt]
    have g2 : roundDouble ((60 : ℝ) + (20 + 15 / 2 ^ 48)) = 80 + 1 / 2 ^ 44 := by
      apply roundDouble_eval _ _ 6 5629499534213124 <;> norm_num [abs_lt]
    have g3 : roundDouble ((80 + 1 / 2 ^ 44 : ℝ) * (3602879701896397 / 2 ^ 52)) =
        64 + 3 / 2 ^ 46 := by
      apply roundDouble_eval _ _ 6 4503599627370499 <;> norm_num [abs_lt]
    have g0 : roundDouble ((3602879701896397 / 2 ^ 52 : ℝ) + 0) = 3602879701896397 / 2 ^ 52 := by
      rw [add_zero, ← l8]
      exact roundDouble_idem (by norm_num)
    -- asteroid 6
    have h1 : roundDouble ((1 / 2 ^ 49 : ℝ) * 200) = 25 / 2 ^ 46 := by
      apply roundDouble_eval _ _ (-42) 7036874417766400 <;> norm_num [abs_lt]
    have h2 : roundDouble ((150 : ℝ) + 25 / 2 ^ 46) = 150 + 12 / 2 ^ 45 := by
      apply roundDouble_eval_tie_down _ _ 7 5277655813324812 <;> norm_num
    have h3 : roundDouble ((150 + 12 / 2 ^ 45 : ℝ) * (5404319552844595 / 2 ^ 53)) =
        90 + 14 / 2 ^ 46 := by
      apply roundDouble_eval _ _ 6 6333186975989774 <;> norm_num [abs_lt]
    have h0 : roundDouble ((5404319552844595 / 2 ^ 53 : ℝ) + 0) = 5404319552844595 / 2 ^ 53 := by
      rw [add_zero, ← l6]
      exact roundDouble_idem (by norm_num)
    have d0 : (boundaryDraws (4 * 0) : ℝ) = 1 - 1 / 2 ^ 52 := by norm_num [boundaryDraws]
    have d1 : (boundaryDraws (4 * 0 + 1) : ℝ) = 1 - 1 / 2 ^ 52 := by norm_num [boundaryDraws]
    have d4 : (boundaryDraws (4 * 1) : ℝ) = 1 / 2 + 3 / 2 ^ 51 := by norm_num [boundaryDraws]
    have d5 : (boundaryDraws (4 * 1 + 1) : ℝ) = 0 := by norm_num [boundaryDraws]
    have d20 : (boundaryDraws (4 * 5) : ℝ) = 1 - 1 / 2 ^ 53 := by norm_num [boundaryDraws]
    have d21 : (boundaryDraws (4 * 5 + 1) : ℝ) = 1 - 1 / 2 ^ 53 := by norm_num [boundaryDraws]
    have d24 : (boundaryDraws (4 * 6) : ℝ) = 1 / 2 ^ 49 := by norm_num [boundaryDraws]
    have d25 : (boundaryDraws (4 * 6 + 1) : ℝ) = 0 := by norm_num [boundaryDraws]
    have a0 : (mkAsteroid roundDouble (JSMath.mk Real.sqrt Real.cos Real.sin Math_PI)
        boundaryDraws 0).a = 100 := by
      show roundDouble (60 + roundDouble (boundaryDraws (4 * 0) * 40)) = (100 : ℝ)
      rw [d0, e1, e2]
    have b0 : (mkAsteroid roundDouble (JSMath.mk Real.sqrt Real.cos Real.sin Math_PI)
        boundaryDraws 0).b = 100 := by
      show roundDouble (roundDouble (60 + roundDouble (boundaryDraws (4 * 0) * 40)) *
        roundDouble (roundDouble (8 / 10) +
          roundDouble (boundaryDraws (4 * 0 + 1) * roundDouble (2 / 10)))) = (100 : ℝ)
      rw [d0, d1, e1, e2, l8, l2, e3, e4, e5]
    have a5 : (mkAsteroid roundDouble (JSMath.mk Real.sqrt Real.cos Real.sin Math_PI)
        boundaryDraws 5).a = 350 := by
      show roundDouble (150 + roundDouble (boundaryDraws (4 * 5) * 200)) = (350 : ℝ)
      rw [d20, f1, f2]
    have b5 : (mkAsteroid roundDouble (JSMath.mk Real.sqrt Real.cos Real.sin Math_PI)
        boundaryDraws 5).b = 350 := by
      show roundDouble (roundDouble (150 + roundDouble (boundaryDraws (4 * 5) * 200)) *
        roundDouble (roundDouble (6 / 10) +
          roundDouble (boundaryDraws (4 * 5 + 1) * roundDouble (4 / 10)))) = (350 : ℝ)
      rw [d20, d21, f1, f2, l6, l4, f3, f4, f5]
    have a1 : (mkAsteroid roundDouble (JSMath.mk Real.sqrt Real.cos Real.sin Math_PI)
        boundaryDraws 1).a = 80 + 1 / 2 ^ 44 := by
      show roundDouble (60 + roundDouble (boundaryDraws (4 * 1) * 40)) = (80 + 1 / 2 ^ 44 : ℝ)
      rw [d4, g1, g2]
    have b1 : (mkAsteroid roundDouble (JSMath.mk Real.sqrt Real.cos Real.sin Math_PI)
        boundaryDraws 1).b = 64 + 3 / 2 ^ 46 := by
      show roundDouble (roundDouble (60 + roundDouble (boundaryDraws (4 * 1) * 40)) *
        roundDouble (roundDouble (8 / 10) +
          roundDouble (boundaryDraws (4 * 1 + 1) * roundDouble (2 / 10)))) =
        (64 + 3 / 2 ^ 46 : ℝ)
      rw [d4, d5, g1, g2, l8, l2, zero_mul, z, g0, g3]
    have a6 : (mkAsteroid roundDouble (JSMath.mk Real.sqrt Real.cos Real.sin Math_PI)
        boundaryDraws 6).a = 150 + 12 / 2 ^ 45 := by
      show roundDouble (150 + roundDouble (boundaryDraws (4 * 6) * 200)) =
        (150 + 12 / 2 ^ 45 : ℝ)
      rw [d24, h1, h2]
    have b6 : (mkAsteroid roundDouble (JSMath.mk Real.sqrt Real.cos Real.sin Math_PI)
        boundaryDraws 6).b = 90 + 14 / 2 ^ 46 := by
      show roundDouble (roundDouble (150 + roundDouble (boundaryDraws (4 * 6) * 200)) *
        roundDouble (roundDouble (6 / 10) +
          roundDouble (boundaryDraws (4 * 6 + 1) * roundDouble (4 / 10)))) =
        (90 + 14 / 2 ^ 46 : ℝ)
      rw [d24, d25, h1, h2, l6, l4, zero_mul, z, h0, h3]
    rw [a0, b0, a5, b5, a1, b1, a6, b6]
    norm_num

/-- C9, amended: for draws of `Math.random()` in `[0, 1)`, with every operation
rounded to a double, initialisation creates exactly `35` asteroids; the first `5`
have `a` in `[60, 100]` and `b` from the double product `0.8*a` (at least `48`)
up to `a`, both ends included; the other `30` have `a` in `[150, 350]` and `b`
from the double product `0.6*a` (at least `90`) up to `a`, both ends included;
every initial angle lies in `[0, 2*pi)`, every size in `[2, 4]`, and every
asteroid starts with an empty trail and the state `normal`. -/
theorem initAsteroids_ranges (M : JSMath ℝ) (hPI : M.PI = Math_PI) (rnd : Nat → ℝ)
    (hrnd : ∀ k, 0 ≤ rnd k ∧ rnd k < 1) :
    (initAsteroids roundDouble M rnd).length = 35 ∧
    ∀ (i : Nat) (a : Asteroid ℝ), (initAsteroids roundDouble M rnd)[i]? = some a →
      i < 35 ∧
      (i < 5 → (60 ≤ a.a ∧ a.a ≤ 100) ∧
        (roundDouble (a.a * roundDouble (8 / 10)) ≤ a.b ∧ 48 ≤ a.b ∧ a.b ≤ a.a)) ∧
      (5 ≤ i → (150 ≤ a.a ∧ a.a ≤ 350) ∧
        (roundDouble (a.a * roundDouble (6 / 10)) ≤ a.b ∧ 90 ≤ a.b ∧ a.b ≤ a.a)) ∧
      (0 ≤ a.angle ∧ a.angle < 2 * Real.pi) ∧
      (2 ≤ a.size ∧ a.size ≤ 4) ∧
      a.trail = [] ∧ a.state = HazardState.normal := by
  refine ⟨by simp [initAsteroids, COUNT], ?_⟩
  intro i a h
  obtain ⟨hi, rfl⟩ := initAsteroids_getElem? roundDouble M rnd i a h
  obtain ⟨⟨hs1, hs2, hs3⟩, hl1, hl2⟩ := mkAsteroid_shape M rnd hrnd i
  obtain ⟨h4, h5⟩ := hrnd (4 * i + 2)
  have hpi : (0 : ℝ) < Math_PI := by
    unfold Math_PI
    norm_num
  have hv0 : 0 ≤ roundDouble (rnd (4 * i + 2) * Math_PI) :=
    roundDouble_nonneg (mul_nonneg h4 hpi.le)
  have hv1 : roundDouble (rnd (4 * i + 2) * Math_PI) ≤ Math_PI := by
    have := roundDouble_mono (mul_nonneg h4 hpi.le)
      (by nlinarith : rnd (4 * i + 2) * (Math_PI : ℝ) ≤ Math_PI)
    rwa [roundDouble_Math_PI] at this
  have hang : roundDouble (roundDouble (rnd (4 * i + 2) * Math_PI) * 2) ≤ Math_PI * 2 := by
    have := roundDouble_mono (mul_nonneg hv0 (by norm_num : (0 : ℝ) ≤ 2))
      (by linarith : roundDouble (rnd (4 * i + 2) * Math_PI) * 2 ≤ (Math_PI : ℝ) * 2)
    rwa [roundDouble_Math_PI_mul_two] at this
  refine ⟨hi, ?_, ?_, ⟨?_, ?_⟩, hs3, rfl, rfl⟩
  · intro h5
    exact ⟨(hs1 h5).1, hl1 h5, (hs1 h5).2.1, (hs1 h5).2.2⟩
  · intro h5
    exact ⟨(hs2 h5).1, hl2 h5, (hs2 h5).2.1, (hs2 h5).2.2⟩
  · show 0 ≤ roundDouble (roundDouble (rnd (4 * i + 2) * M.PI) * 2)
    rw [hPI]
    exact roundDouble_nonneg (mul_nonneg hv0 (by norm_num))
  · show roundDouble (roundDouble (rnd (4 * i + 2) * M.PI) * 2) < 2 * Real.pi
    rw [hPI]
    have := math_PI_lt_pi
    linarith

theorem initAsteroids_ranges_witness :
    ((JSMath.mk Real.sqrt Real.cos Real.sin (Math_PI : ℝ)).PI = Math_PI ∧
      ∀ k : Nat, 0 ≤ (fun _ : Nat => (1 / 2 : ℝ)) k ∧ (fun _ : Nat => (1 / 2 : ℝ)) k < 1) ∧
    (initAsteroids roundDouble (JSMath.mk Real.sqrt Real.cos Real.sin Math_PI)
      (fun _ => (1 / 2 : ℝ))).length = 35 :=
  ⟨⟨rfl, fun _ => by norm_num⟩,
   (initAsteroids_ranges (JSMath.mk Real.sqrt Real.cos Real.sin Math_PI) rfl
      (fun _ => (1 / 2 : ℝ)) (fun _ => by norm_num)).1⟩

end Initialisation
section Safety

theorem ellipse_distance_bounds (a b t : ℝ) (hb : 0 < b) (hab : b ≤ a) :
    b ≤ Real.sqrt (a ^ 2 * Real.cos t ^ 2 + b ^ 2 * Real.sin t ^ 2) ∧
    Real.sqrt (a ^ 2 * Real.cos t ^ 2 + b ^ 2 * Real.sin t ^ 2) ≤ a := by
  have hcs := Real.cos_sq_add_sin_sq t
  have hc := sq_nonneg (Real.cos t)
  have hs := sq_nonneg (Real.sin t)
  have hsq : b ^ 2 ≤ a ^ 2 := by nlinarith
  constructor
  · rw [Real.le_sqrt' hb]
    nlinarith
  · rw [Real.sqrt_le_left (by linarith)]
    nlinarith

theorem animateOne_fixed (M : JSMath ℝ) (c : Controls ℝ) (cx cy : ℝ) (a : Asteroid ℝ) :
    (animateOne M c cx cy a).a = a.a ∧ (animateOne M c cx cy a).b = a.b ∧
    (animateOne M c cx cy a).size = a.size := by
  simp only [animateOne, checkCollision_a, checkCollision_b, checkCollision_size,
    updateAsteroid, and_self]

theorem animateOne_state (M : JSMath ℝ) (c : Controls ℝ) (cx cy : ℝ) (a : Asteroid ℝ) :
    (animateOne M c cx cy a).state =
      hazardOf (animateOne M c cx cy a).r (animateOne M c cx cy a).size := by
  simp only [animateOne]
  rw [checkCollision_state, checkCollision_r, checkCollision_size]

theorem animateOne_shape (M : JSMath ℝ) (c : Controls ℝ) (cx cy : ℝ) (i : Nat)
    (a : Asteroid ℝ) (h : InitShape i a) : InitShape i (animateOne M c cx cy a) := by
  obtain ⟨h1, h2, h3⟩ := animateOne_fixed M c cx cy a
  unfold InitShape
  rw [h1, h2, h3]
  exact h

theorem initShape_axes (i : Nat) (a : Asteroid ℝ) (h : InitShape i a) :
    48 ≤ a.b ∧ a.b ≤ a.a ∧ (i < 5 → a.a ≤ 100) := by
  obtain ⟨h1, h2, _⟩ := h
  by_cases hi : i < 5
  · obtain ⟨⟨_, h4⟩, h5, h6⟩ := h1 hi
    exact ⟨h5, h6, fun _ => h4⟩
  · obtain ⟨_, h5, h6⟩ := h2 (not_lt.mp hi)
    exact ⟨by linarith, h6, fun h7 => absurd h7 hi⟩

theorem animateOne_safe (M : JSMath ℝ) (hM : IsRealTrig M) (c : Controls ℝ) (cx cy : ℝ)
    (i : Nat) (a : Asteroid ℝ) (h : InitShape i a) :
    OrbitSafe i (animateOne M c cx cy a) := by
  obtain ⟨hb48, hba, hclose⟩ := initShape_axes i a h
  obtain ⟨_, _, f3⟩ := animateOne_fixed M c cx cy a
  have hr : (animateOne M c cx cy a).r =
      Real.sqrt (a.a ^ 2 * Real.cos a.angle ^ 2 + a.b ^ 2 * Real.sin a.angle ^ 2) := by
    rw [animateOne_r, updateAsteroid_r M hM]
  obtain ⟨hlo, hhi⟩ := ellipse_distance_bounds a.a a.b a.angle (by linarith) hba
  have hsize := h.2.2
  have hthr : EARTH_radius + (animateOne M c cx cy a).size + 5 < (animateOne M c cx cy a).r := by
    rw [f3, hr]
    simp only [EARTH_radius]
    linarith
  have hnot : (animateOne M c cx cy a).state ≠ HazardState.hit := by
    intro hhit
    rw [animateOne_state, hazardOf_hit_iff] at hhit
    simp only [EARTH_radius] at hthr
    linarith [hhit.2]
  refine ⟨animateOne_shape M c cx cy i a h, ?_, hthr, hnot, ?_, ?_⟩
  · rw [hr]
    linarith
  · rw [animateOne_state, hazardOf_near_iff]
    simp only [EARTH_radius, DANGER_RADIUS] at hthr ⊢
    constructor
    · intro h1
      exact h1.1
    · intro h1
      exact ⟨h1, hthr⟩
  · intro hi
    rw [hr]
    linarith [hclose hi]

theorem initAsteroids_shapeInv (M : JSMath ℝ) (rnd : Nat → ℝ)
    (hrnd : ∀ k, 0 ≤ rnd k ∧ rnd k < 1) : ShapeInv (initAsteroids roundDouble M rnd) := by
  refine ⟨by simp [initAsteroids], ?_⟩
  intro i a h
  obtain ⟨_, rfl⟩ := initAsteroids_getElem? roundDouble M rnd i a h
  exact ⟨(mkAsteroid_shape M rnd hrnd i).1, by simp [mkAsteroid]⟩

theorem animate_getElem? (M : JSMath ℝ) (c : Controls ℝ) (hc : c.isPaused = false)
    (as : List (Asteroid ℝ)) (i : Nat) (a : Asteroid ℝ)
    (h : (animate M c as)[i]? = some a) :
    ∃ a0, as[i]? = some a0 ∧ a = animateOne M c (c.width / 2) (c.height / 2) a0 := by
  simp only [animate, hc, Bool.false_eq_true, if_false, List.getElem?_map,
    Option.map_eq_some'] at h
  obtain ⟨a0, h0, h1⟩ := h
  exact ⟨a0, h0, h1.symm⟩

theorem animate_shapeInv (M : JSMath ℝ) (hM : IsRealTrig M) (c : Controls ℝ)
    (as : List (Asteroid ℝ)) (h : ShapeInv as) : ShapeInv (animate M c as) := by
  cases hc : c.isPaused
  · refine ⟨by simpa [animate, hc] using h.1, ?_⟩
    intro i a hia
    obtain ⟨a0, h0, rfl⟩ := animate_getElem? M c hc as i a hia
    have hs := (h.2 i a0 h0).1
    exact ⟨animateOne_shape M c _ _ i a0 hs, (animateOne_safe M hM c _ _ i a0 hs).2.2.2.1⟩
  · simpa [animate, hc] using h

theorem runFrames_shapeInv (M : JSMath ℝ) (hM : IsRealTrig M) (cs : List (Controls ℝ)) :
    ∀ as : List (Asteroid ℝ), ShapeInv as → ShapeInv (runFrames M cs as) := by
  induction cs with
  | nil => intro as h; exact h
  | cons c cs ih =>
    intro as h
    exact ih (animate M c as) (animate_shapeInv M hM c as h)

theorem animate_orbitSafe (M : JSMath ℝ) (hM : IsRealTrig M) (c : Controls ℝ)
    (as : List (Asteroid ℝ))
    (h : ∀ (i : Nat) (a : Asteroid ℝ), as[i]? = some a → OrbitSafe i a) :
    ∀ (i : Nat) (a : Asteroid ℝ), (animate M c as)[i]? = some a → OrbitSafe i a := by
  cases hc : c.isPaused
  · intro i a hia
    obtain ⟨a0, h0, rfl⟩ := animate_getElem? M c hc as i a hia
    exact animateOne_safe M hM c _ _ i a0 (h i a0 h0).1
  · simpa [animate, hc] using h

theorem runFrames_orbitSafe (M : JSMath ℝ) (hM : IsRealTrig M) (cs : List (Controls ℝ)) :
    ∀ as : List (Asteroid ℝ),
      (∀ (i : Nat) (a : Asteroid ℝ), as[i]? = some a → OrbitSafe i a) →
      ∀ (i : Nat) (a : Asteroid ℝ), (runFrames M cs as)[i]? = some a → OrbitSafe i a := by
  induction cs with
  | nil => intro as h; exact h
  | cons c cs ih =>
    intro as h
    exact ih (animate M c as) (animate_orbitSafe M hM c as h)

theorem activeHazards_animate (M : JSMath ℝ) (c : Controls ℝ) (hc : c.isPaused = false)
    (as : List (Asteroid ℝ)) :
    activeHazards (animate M c as) =
      (animate M c as).countP (fun a => decide (a.r < DANGER_RADIUS)) := by
  unfold activeHazards
  apply List.countP_congr
  intro a ha
  have hst : a.state = hazardOf a.r a.size := by
    simp only [animate, hc, Bool.false_eq_true, if_false, List.mem_map] at ha
    obtain ⟨a0, _, rfl⟩ := ha
    exact animateOne_state M c _ _ a0
  have hn := hazardOf_normal_iff a.r a.size
  simp only [decide_eq_true_eq, DANGER_RADIUS]
  rw [hst]
  constructor
  · intro h1
    by_contra h2
    exact h1 (hn.mpr (not_lt.mp h2))
  · intro h1 h2
    exact absurd h1 (not_lt.mpr (hn.mp h2))

theorem animateOne_r_at_angle_zero (M : JSMath ℝ) (hM : IsRealTrig M) (c : Controls ℝ)
    (cx cy : ℝ) (a : Asteroid ℝ) (h0 : a.angle = 0) (ha : 0 ≤ a.a) :
    (animateOne M c cx cy a).r = a.a := by
  rw [animateOne_r, updateAsteroid_r M hM, h0]
  simp only [Real.cos_zero, Real.sin_zero]
  have : a.a ^ 2 * 1 ^ 2 + a.b ^ 2 * 0 ^ 2 = a.a ^ 2 := by ring
  rw [this, Real.sqrt_sq ha]

theorem upperDraw_of_pos (k : Nat) (hk : 0 < k) : (upperDraw k : ℝ) = 0 := by
  unfold upperDraw
  rw [if_neg (by omega)]

theorem mkAsteroid_upperDraw (M : JSMath ℝ) (i : Nat) :
    (mkAsteroid roundDouble M upperDraw i).angle = 0 ∧
    (mkAsteroid roundDouble M upperDraw i).size = 2 ∧
    (mkAsteroid roundDouble M upperDraw i).a =
      if i = 0 then 100 else if i < 5 then 60 else 150 := by
  have z : roundDouble (0 : ℝ) = 0 := roundDouble_zero
  have d2 : (upperDraw (4 * i + 2) : ℝ) = 0 := upperDraw_of_pos _ (by omega)
  have d3 : (upperDraw (4 * i + 3) : ℝ) = 0 := upperDraw_of_pos _ (by omega)
  refine ⟨?_, ?_, ?_⟩
  · show roundDouble (roundDouble (upperDraw (4 * i + 2) * M.PI) * 2) = 0
    rw [d2, zero_mul, z, zero_mul, z]
  · show roundDouble (2 + roundDouble (upperDraw (4 * i + 3) * 2)) = 2
    rw [d3, zero_mul, z, add_zero, roundDouble_two]
  · rcases Nat.eq_zero_or_pos i with h0 | hpos
    · subst h0
      have e1 : roundDouble ((1 - 1 / 2 ^ 52 : ℝ) * 40) = 40 - 1 / 2 ^ 47 := by
        apply roundDouble_eval _ _ 5 5629499534213119 <;> norm_num [abs_lt]
      have e2 : roundDouble ((60 : ℝ) + (40 - 1 / 2 ^ 47)) = 100 := by
        apply roundDouble_eval_tie_up _ _ 6 7036874417766400 <;> norm_num
      have d0 : (upperDraw (4 * 0) : ℝ) = 1 - 1 / 2 ^ 52 := by norm_num [upperDraw]
      show roundDouble (60 + roundDouble (upperDraw (4 * 0) * 40)) = (100 : ℝ)
      rw [d0, e1, e2]
    · have d0 : (upperDraw (4 * i) : ℝ) = 0 := upperDraw_of_pos _ (by omega)
      rw [if_neg (by omega)]
      by_cases hi : i < 5
      · rw [if_pos hi]
        simp only [mkAsteroid, hi, if_true]
        rw [d0, zero_mul, z, add_zero, roundDouble_60]
      · rw [if_neg hi]
        simp only [mkAsteroid, hi, if_false]
        rw [d0, zero_mul, z, add_zero, roundDouble_150]

theorem animateOne_upperDraw (i : Nat) :
    (animateOne (JSMath.mk Real.sqrt Real.cos Real.sin Math_PI) (sampleControls true false 1)
      ((sampleControls true false (1 : ℝ)).width / 2)
      ((sampleControls true false (1 : ℝ)).height / 2)
      (mkAsteroid roundDouble (JSMath.mk Real.sqrt Real.cos Real.sin Math_PI)
        upperDraw i)).r = (if i = 0 then 100 else if i < 5 then 60 else 150) ∧
    (animateOne (JSMath.mk Real.sqrt Real.cos Real.sin Math_PI) (sampleControls true false 1)
      ((sampleControls true false (1 : ℝ)).width / 2)
      ((sampleControls true false (1 : ℝ)).height / 2)
      (mkAsteroid roundDouble (JSMath.mk Real.sqrt Real.cos Real.sin Math_PI)
        upperDraw i)).state =
      (if 1 ≤ i ∧ i < 5 then HazardState.near else HazardState.normal) := by
  obtain ⟨h0, h2, ha⟩ :=
    mkAsteroid_upperDraw (JSMath.mk Real.sqrt Real.cos Real.sin Math_PI) i
  have hr := animateOne_r_at_angle_zero (JSMath.mk Real.sqrt Real.cos Real.sin Math_PI)
    ⟨rfl, rfl, rfl⟩ (sampleControls true false 1)
    ((sampleControls true false (1 : ℝ)).width / 2)
    ((sampleControls true false (1 : ℝ)).height / 2) _ h0
    (by rw [ha]; split_ifs <;> norm_num)
  rw [ha] at hr
  refine ⟨hr, ?_⟩
  rw [animateOne_state, hr, (animateOne_fixed _ _ _ _ _).2.2, h2]
  unfold hazardOf
  by_cases hi0 : i = 0
  · subst hi0
    norm_num
  · by_cases hi : i < 5
    · have h1 : 1 ≤ i ∧ i < 5 := ⟨by omega, hi⟩
      rw [if_neg hi0, if_pos hi, if_pos h1]
      norm_num
    · have h1 : ¬ (1 ≤ i ∧ i < 5) := fun h => hi h.2
      rw [if_neg hi0, if_neg hi, if_neg h1]
      norm_num

/-- C10, as stated, fails: when the first draw of `Math.random()` is the double
`1 - 2^(-52)` and the others are `0`, asteroid `0` gets `a = 100` and, on the
first frame on an `800 x 600` canvas (angle `0`), distance `r = 100`, which is
not below the danger radius: its state is `normal`, not `near`, and the
hazardous count shown is `4`. -/
theorem close_orbit_reaches_danger_radius :
    (∀ k : Nat, 0 ≤ (upperDraw k : ℝ) ∧ (upperDraw k : ℝ) < 1 ∧
      roundDouble (upperDraw k : ℝ) = upperDraw k) ∧
    (∃ a0 : Asteroid ℝ,
      (animate (JSMath.mk Real.sqrt Real.cos Real.sin Math_PI) (sampleControls true false 1)
        (initAsteroids roundDouble (JSMath.mk Real.sqrt Real.cos Real.sin Math_PI)
          upperDraw))[0]? = some a0 ∧
      a0.a = 100 ∧ a0.r = 100 ∧ a0.state = HazardState.normal) ∧
    animateStats (JSMath.mk Real.sqrt Real.cos Real.sin Math_PI) (sampleControls true false 1)
      (initAsteroids roundDouble (JSMath.mk Real.sqrt Real.cos Real.sin Math_PI)
        upperDraw) = some (35, 4) := by
  refine ⟨?_, ?_, ?_⟩
  · intro k
    unfold upperDraw
    split_ifs
    · refine ⟨by norm_num, by norm_num, ?_⟩
      have h := roundDouble_fix (F := ℝ) (2 ^ 52 - 1) (-52) (by norm_num) (by norm_num)
      have e : (((2 ^ 52 - 1 : ℤ) : ℝ)) * 2 ^ (-52 : ℤ) = 1 - 1 / 2 ^ 52 := by norm_num
      rwa [e] at h
    · exact ⟨le_refl _, by norm_num, roundDouble_zero⟩
  · refine ⟨animateOne (JSMath.mk Real.sqrt Real.cos Real.sin Math_PI)
      (sampleControls true false 1) ((sampleControls true false (1 : ℝ)).width / 2)
      ((sampleControls true false (1 : ℝ)).height / 2)
      (mkAsteroid roundDouble (JSMath.mk Real.sqrt Real.cos Real.sin Math_PI) upperDraw 0),
      ?_, ?_, ?_, ?_⟩
    · have hp : (sampleControls true false (1 : ℝ)).isPaused = false := rfl
      simp only [animate, hp, Bool.false_eq_true, if_false, List.getElem?_map]
      rw [initAsteroids_getElem?_of_lt _ _ _ 0 (by norm_num [COUNT])]
      rfl
    · rw [(animateOne_fixed _ _ _ _ _).1]
      exact (mkAsteroid_upperDraw _ 0).2.2
    · exact (animateOne_upperDraw 0).1
    · exact (animateOne_upperDraw 0).2
  · have hstate : ∀ i : Nat,
        decide ((animateOne (JSMath.mk Real.sqrt Real.cos Real.sin Math_PI)
          (sampleControls true false 1) ((sampleControls true false (1 : ℝ)).width / 2)
          ((sampleControls true false (1 : ℝ)).height / 2)
          (mkAsteroid roundDouble (JSMath.mk Real.sqrt Real.cos Real.sin Math_PI)
            upperDraw i)).state ≠ HazardState.normal) = decide (1 ≤ i ∧ i < 5) := by
      intro i
      rw [(animateOne_upperDraw i).2]
      by_cases h : 1 ≤ i ∧ i < 5
      · simp [h]
      · simp [h]
    have hcount : activeHazards (animate (JSMath.mk Real.sqrt Real.cos Real.sin Math_PI)
        (sampleControls true false 1)
        (initAsteroids roundDouble (JSMath.mk Real.sqrt Real.cos Real.sin Math_PI)
          upperDraw)) = 4 := by
      have hp : (sampleControls true false (1 : ℝ)).isPaused = false := rfl
      simp only [activeHazards, animate, hp, Bool.false_eq_true, if_false, initAsteroids,
        List.map_map, List.countP_map]
      have : ((fun a : Asteroid ℝ => decide (a.state ≠ HazardState.normal)) ∘
          (animateOne (JSMath.mk Real.sqrt Real.cos Real.sin Math_PI)
            (sampleControls true false 1) ((sampleControls true false (1 : ℝ)).width / 2)
            ((sampleControls true false (1 : ℝ)).height / 2) ∘
          mkAsteroid roundDouble (JSMath.mk Real.sqrt Real.cos Real.sin Math_PI)
            upperDraw)) = fun i : Nat => decide (1 ≤ i ∧ i < 5) := by
        funext i
        exact hstate i
      rw [this]
      decide
    have hp : (sampleControls true false (1 : ℝ)).isPaused = false := rfl
    have hlen : (animate (JSMath.mk Real.sqrt Real.cos Real.sin Math_PI)
        (sampleControls true false 1)
        (initAsteroids roundDouble (JSMath.mk Real.sqrt Real.cos Real.sin Math_PI)
          upperDraw)).length = 35 := by
      simp [animate, hp, initAsteroids, COUNT]
    simp only [animateStats, hp, Bool.false_eq_true, if_false, hcount, hlen]

/-- C10, amended: for draws of `Math.random()` in `[0, 1)`, after any sequence of
calls of `animate` no asteroid is in the state `hit`; once an unpaused call has
run, with any canvas size and speed multiplier, and after any further calls,
every asteroid has `r >= 47` and `r > earthRadius + size + 5`, each of the first
`5` has `r <= 101`, and every asteroid is `near` exactly when its `r` is below
`100`, `normal` otherwise; and every unpaused call shows `35` as the tracked
count and, as the hazardous count, the number of asteroids whose `r` is below
`100`. -/
theorem never_hit_near_by_distance (M : JSMath ℝ) (hM : IsRealTrig M) (rnd : Nat → ℝ)
    (hrnd : ∀ k, 0 ≤ rnd k ∧ rnd k < 1) (cs cs2 : List (Controls ℝ)) (c : Controls ℝ)
    (hc : c.isPaused = false) :
    (∀ a ∈ runFrames M cs (initAsteroids roundDouble M rnd), a.state ≠ HazardState.hit) ∧
    (∀ (i : Nat) (a : Asteroid ℝ),
      (runFrames M cs2 (animate M c (runFrames M cs (initAsteroids roundDouble M rnd))))[i]? =
          some a →
        47 ≤ a.r ∧ EARTH_radius + a.size + 5 < a.r ∧ a.state ≠ HazardState.hit ∧
        (i < 5 → a.r ≤ 101) ∧
        (a.state = HazardState.near ↔ a.r < DANGER_RADIUS) ∧
        (a.state = HazardState.normal ↔ DANGER_RADIUS ≤ a.r)) ∧
    animateStats M c (runFrames M cs (initAsteroids roundDouble M rnd)) =
      some (35, (animate M c (runFrames M cs (initAsteroids roundDouble M rnd))).countP
        (fun a => decide (a.r < DANGER_RADIUS))) := by
  have hinv := runFrames_shapeInv M hM cs _ (initAsteroids_shapeInv M rnd hrnd)
  have hstep : ∀ (i : Nat) (a : Asteroid ℝ),
      (animate M c (runFrames M cs (initAsteroids roundDouble M rnd)))[i]? = some a →
        OrbitSafe i a := by
    intro i a hia
    obtain ⟨a0, h0, rfl⟩ := animate_getElem? M c hc _ i a hia
    exact animateOne_safe M hM c _ _ i a0 (hinv.2 i a0 h0).1
  have hlen : (animate M c (runFrames M cs (initAsteroids roundDouble M rnd))).length = 35 :=
    (animate_shapeInv M hM c _ hinv).1
  refine ⟨?_, ?_, ?_⟩
  · intro a ha
    obtain ⟨i, hi⟩ := List.mem_iff_getElem?.mp ha
    exact (hinv.2 i a hi).2
  · intro i a hia
    obtain ⟨_, h47, h1, h2, h3, h4⟩ := runFrames_orbitSafe M hM cs2 _ hstep i a hia
    refine ⟨h47, h1, h2, h4, h3, ?_⟩
    constructor
    · intro hn
      by_contra hlt
      have := h3.mpr (not_le.mp hlt)
      rw [hn] at this
      exact absurd this (by decide)
    · intro hge
      cases hs : a.state with
      | normal => rfl
      | near => exact absurd (h3.mp hs) (not_lt.mpr hge)
      | hit => exact absurd hs h2
  · simp only [animateStats, hc, Bool.false_eq_true, if_false, hlen,
      activeHazards_animate M c hc]

theorem never_hit_near_by_distance_witness :
    (IsRealTrig (JSMath.mk Real.sqrt Real.cos Real.sin Math_PI) ∧
      (∀ k : Nat, 0 ≤ (fun _ : Nat => (1 / 2 : ℝ)) k ∧ (fun _ : Nat => (1 / 2 : ℝ)) k < 1) ∧
      (sampleControls true false (1 : ℝ)).isPaused = false) ∧
    (∀ a ∈ runFrames (JSMath.mk Real.sqrt Real.cos Real.sin Math_PI)
        [sampleControls true false 1, sampleControls false false 2]
        (initAsteroids roundDouble (JSMath.mk Real.sqrt Real.cos Real.sin Math_PI)
          (fun _ => (1 / 2 : ℝ))),
      a.state ≠ HazardState.hit) :=
  ⟨⟨⟨rfl, rfl, rfl⟩, fun _ => by norm_num, rfl⟩,
   (never_hit_near_by_distance (JSMath.mk Real.sqrt Real.cos Real.sin Math_PI)
      ⟨rfl, rfl, rfl⟩ (fun _ => (1 / 2 : ℝ)) (fun _ => by norm_num)
      [sampleControls true false 1, sampleControls false false 2]
      [sampleControls true true 1]
      (sampleControls true false 1) rfl).1⟩

end Safety
end AstroG
